import Mathlib

/-!
Verification of the MXJob status state machine
(`pkg/controller.v1/mxnet/status.go` of the mxnet-operator repository).

The Go source mutates `mxjob.Status` in place; the embedding below is the
same logic as a pure function from the old status (plus the call inputs) to
the new status.  Wall-clock reads (`metav1.Now()`) are modelled by a single
`now : Nat` parameter of each call: every `metav1.Now()` performed during one
reconciliation call yields the same instant `now`.  Logging, the work queue
(`tc.WorkQueue.AddAfter`, used only to re-arm the deadline timer) and the
status writer are external collaborators and are not modelled.  `KeyFunc`
(external cache plumbing, the only genuine error source of
`updateStatusSingle`) is modelled as succeeding, so the embedded
`updateStatusSingle` is total; note that the Go helper
`updateMXJobConditions` always returns a nil error, so every other error
branch of the source is dead code.
-/

/-- Replica role tags.  Modelled from the spec: the `MXReplicaType`
enumeration lives in the API package `mxv1`, which is not part of the core
source file; the spec names `Scheduler`, `Worker`, `Tuner` and mentions
further roles (for example parameter servers), which `server` stands for. -/
inductive MXReplicaType where
  | scheduler
  | server
  | worker
  | tuner
deriving DecidableEq, Repr

/-- Kubernetes condition status (`v1.ConditionStatus`): the three string
constants True / False / Unknown. -/
inductive ConditionStatus where
  | conditionTrue
  | conditionFalse
  | conditionUnknown
deriving DecidableEq, Repr

/-- Job lifecycle condition types.  Modelled from the spec: the
`MXJobConditionType` constants of the API package are exactly `Created`,
`Running`, `Restarting`, `Succeeded`, `Failed`. -/
inductive MXJobConditionType where
  | created
  | running
  | restarting
  | succeeded
  | failed
deriving DecidableEq, Repr

/-- Pod phase (`v1.PodPhase`); phases other than Running / Succeeded /
Failed are collapsed into `pending` and `unknown`, which the aggregator
ignores. -/
inductive PodPhase where
  | pending
  | running
  | succeeded
  | failed
  | unknown
deriving DecidableEq, Repr

/-- `mxv1.MXJobCondition`.  The Go field `Type` is called `ctype` here
because `Type` is reserved in Lean; timestamps are `metav1.Time` values,
modelled as `Nat`. -/
structure MXJobCondition where
  ctype : MXJobConditionType
  status : ConditionStatus
  lastUpdateTime : Nat
  lastTransitionTime : Nat
  reason : String
  message : String
deriving DecidableEq, Repr

/-- `mxv1.MXReplicaStatus`: per-group pod counters.  The Go fields are
`int32`; they are modelled as `Int` (the arithmetic in the source also mixes
them with `int`). -/
structure MXReplicaStatus where
  active : Int
  succeeded : Int
  failed : Int
deriving DecidableEq, Repr

/-- `mxv1.MXJobStatus`.  The Go map `MXReplicaStatuses` holds one pointer
per replica type; it is modelled as a total function (the initialized map),
matching the contract that `initializeMXReplicaStatuses` runs before any
lookup. -/
@[ext]
structure MXJobStatus where
  startTime : Option Nat
  completionTime : Option Nat
  mxReplicaStatuses : MXReplicaType → MXReplicaStatus
  conditions : List MXJobCondition

/-- The slice of `mxv1.MXJob` that `updateStatusSingle` reads:
`mxjob.Name`, the result of `ContainSchedulerSpec(mxjob)` (a job-spec
predicate defined outside the source file: whether the job topology declares
a scheduler replica group), and `mxjob.Status`.
(`Spec.ActiveDeadlineSeconds` only feeds the external work queue.) -/
@[ext]
structure MXJob where
  name : String
  containSchedulerSpec : Bool
  status : MXJobStatus

/-- Reason string constant `mxJobCreatedReason`. -/
def mxJobCreatedReason : String := "MXJobCreated"

/-- Reason string constant `mxJobSucceededReason`. -/
def mxJobSucceededReason : String := "MXJobSucceeded"

/-- Reason string constant `mxJobRunningReason`. -/
def mxJobRunningReason : String := "MXJobRunning"

/-- Reason string constant `mxJobFailedReason`. -/
def mxJobFailedReason : String := "MXJobFailed"

/-- Reason string constant `mxJobRestartingReason`. -/
def mxJobRestartingReason : String := "MXJobRestarting"

/-- Message built by the source for a Running condition:
`fmt.Sprintf("MXJob %s is running.", mxjob.Name)`. -/
def runningMsg (name : String) : String := "MXJob " ++ name ++ " is running."

/-- Message for a Succeeded condition. -/
def succeededMsg (name : String) : String :=
  "MXJob " ++ name ++ " is successfully completed."

/-- Message for a Restarting condition. -/
def restartingMsg (name : String) : String := "MXJob " ++ name ++ " is restarting."

/-- Message for a Failed condition. -/
def failedMsg (name : String) : String := "MXJob " ++ name ++ " is failed."

/-- `newCondition` (status.go:177-186): a condition with status True and
both timestamps set to the current time. -/
def newCondition (conditionType : MXJobConditionType) (reason message : String)
    (now : Nat) : MXJobCondition :=
  { ctype := conditionType
    status := ConditionStatus.conditionTrue
    lastUpdateTime := now
    lastTransitionTime := now
    reason := reason
    message := message }

/-- `getCondition` (status.go:189-194).  Note: exactly as in the source,
the `condType` parameter is ignored and the last element of the condition
slice is returned whenever the slice is nonempty. -/
def getCondition (status : MXJobStatus) (condType : MXJobConditionType) :
    Option MXJobCondition :=
  status.conditions.getLast?

/-- `hasCondition` (status.go:196-203): some condition of the given type has
status True. -/
def hasCondition (status : MXJobStatus) (condType : MXJobConditionType) : Bool :=
  status.conditions.any fun condition =>
    decide (condition.ctype = condType ∧
      condition.status = ConditionStatus.conditionTrue)

/-- `isSucceeded` (status.go:205-207). -/
def isSucceeded (status : MXJobStatus) : Bool :=
  hasCondition status MXJobConditionType.succeeded

/-- `isFailed` (status.go:209-211). -/
def isFailed (status : MXJobStatus) : Bool :=
  hasCondition status MXJobConditionType.failed

/-- `filterOutCondition` (status.go:240-262): drops conditions of the given
type, drops Running when inserting Restarting and vice versa, and flips the
status of a retained Running condition to False when the inserted type is
Failed or Succeeded. -/
def filterOutCondition : List MXJobCondition → MXJobConditionType →
    List MXJobCondition
  | [], _ => []
  | c :: rest, condType =>
    if condType = MXJobConditionType.restarting ∧
        c.ctype = MXJobConditionType.running then
      filterOutCondition rest condType
    else if condType = MXJobConditionType.running ∧
        c.ctype = MXJobConditionType.restarting then
      filterOutCondition rest condType
    else if c.ctype = condType then
      filterOutCondition rest condType
    else if (condType = MXJobConditionType.failed ∨
        condType = MXJobConditionType.succeeded) ∧
        c.ctype = MXJobConditionType.running then
      { c with status := ConditionStatus.conditionFalse } ::
        filterOutCondition rest condType
    else
      c :: filterOutCondition rest condType

/-- `setCondition` (status.go:216-237): no-op on a completed (Failed or
Succeeded) status; no-op when the condition returned by `getCondition` has
the same status and reason; otherwise keeps the previous transition time
when the status did not change, filters out conflicting conditions and
appends. -/
def setCondition (status : MXJobStatus) (condition : MXJobCondition) :
    MXJobStatus :=
  if isFailed status || isSucceeded status then status
  else
    match getCondition status condition.ctype with
    | some currentCond =>
      if currentCond.status = condition.status ∧
          currentCond.reason = condition.reason then status
      else
        let condition :=
          if currentCond.status = condition.status then
            { condition with lastTransitionTime := currentCond.lastTransitionTime }
          else condition
        { status with
            conditions := filterOutCondition status.conditions condition.ctype
              ++ [condition] }
    | none =>
      { status with
          conditions := filterOutCondition status.conditions condition.ctype
            ++ [condition] }

/-- `updateMXJobConditions` (status.go:149-153).  The Go function always
returns a nil error, so only the status effect is modelled. -/
def updateMXJobConditions (status : MXJobStatus)
    (conditionType : MXJobConditionType) (reason message : String)
    (now : Nat) : MXJobStatus :=
  setCondition status (newCondition conditionType reason message now)

/-- `updateMXJobReplicaStatuses` (status.go:165-174): folds one pod phase
observation into the counters of the given replica type. -/
def updateMXJobReplicaStatuses (statuses : MXReplicaType → MXReplicaStatus)
    (rtype : MXReplicaType) (podPhase : PodPhase) :
    MXReplicaType → MXReplicaStatus :=
  match podPhase with
  | PodPhase.running =>
    Function.update statuses rtype
      { statuses rtype with active := (statuses rtype).active + 1 }
  | PodPhase.succeeded =>
    Function.update statuses rtype
      { statuses rtype with succeeded := (statuses rtype).succeeded + 1 }
  | PodPhase.failed =>
    Function.update statuses rtype
      { statuses rtype with failed := (statuses rtype).failed + 1 }
  | _ => statuses

/-- Start-time block of `updateStatusSingle` (status.go:59-67): sets
`StartTime` when unset.  (The deadline re-arm enqueued here goes to the
external work queue and is not modelled.) -/
def setStartTime (status : MXJobStatus) (now : Nat) : MXJobStatus :=
  if status.startTime = none then { status with startTime := some now }
  else status

/-- Completion-time guard used at status.go:81-84, 97-100 and 128-131:
sets `CompletionTime` when unset. -/
def setCompletionTimeIfNil (status : MXJobStatus) (now : Nat) : MXJobStatus :=
  if status.completionTime = none then
    { status with completionTime := some now }
  else status

/-- Topology branch of `updateStatusSingle` (status.go:69-116): the
scheduler-coordinated case applies Running and/or Succeeded from the
scheduler group; the scheduler-less case applies Succeeded or Running from
a Worker or Tuner group. -/
def topologyStep (name : String) (containSchedulerSpec : Bool)
    (rtype : MXReplicaType) (expected running : Int)
    (schedulerCompleted : Bool) (now : Nat) (status : MXJobStatus) :
    MXJobStatus :=
  if containSchedulerSpec then
    if rtype = MXReplicaType.scheduler then
      let status :=
        if running > 0 then
          updateMXJobConditions status MXJobConditionType.running
            mxJobRunningReason (runningMsg name) now
        else status
      if expected = 0 then
        updateMXJobConditions (setCompletionTimeIfNil status now)
          MXJobConditionType.succeeded mxJobSucceededReason
          (succeededMsg name) now
      else status
    else status
  else
    if rtype = MXReplicaType.worker ∨ rtype = MXReplicaType.tuner then
      if expected = 0 ∨ schedulerCompleted then
        updateMXJobConditions (setCompletionTimeIfNil status now)
          MXJobConditionType.succeeded mxJobSucceededReason
          (succeededMsg name) now
      else if running > 0 then
        updateMXJobConditions status MXJobConditionType.running
          mxJobRunningReason (runningMsg name) now
      else status
    else status

/-- Failure branch of `updateStatusSingle` (status.go:118-138): when the
failed count is positive, apply Restarting (restart policy) or set the
completion time and apply Failed. -/
def failureStep (name : String) (failed : Int) (restart : Bool) (now : Nat)
    (status : MXJobStatus) : MXJobStatus :=
  if failed > 0 then
    if restart then
      updateMXJobConditions status MXJobConditionType.restarting
        mxJobRestartingReason (restartingMsg name) now
    else
      updateMXJobConditions (setCompletionTimeIfNil status now)
        MXJobConditionType.failed mxJobFailedReason (failedMsg name) now
  else status

/-- `updateStatusSingle` (status.go:44-140), as a pure function from the
job to the new status.  The counts are read from the replica status map
before any mutation, exactly as in the source (lines 52-54); `KeyFunc` is
modelled as succeeding, and every reachable return of the source is `nil`,
so the embedding is total. -/
def updateStatusSingle (mxjob : MXJob) (rtype : MXReplicaType)
    (replicas : Int) (restart schedulerCompleted : Bool) (now : Nat) :
    MXJobStatus :=
  let expected : Int := replicas - (mxjob.status.mxReplicaStatuses rtype).succeeded
  let running : Int := (mxjob.status.mxReplicaStatuses rtype).active
  let failed : Int := (mxjob.status.mxReplicaStatuses rtype).failed
  failureStep mxjob.name failed restart now
    (topologyStep mxjob.name mxjob.containSchedulerSpec rtype expected running
      schedulerCompleted now
      (setStartTime mxjob.status now))

/-! ## Basic facts about the condition history primitives -/

/-- The completion test used by `setCondition` (status.go:218): a Failed or
Succeeded condition with status True exists. -/
def completed (status : MXJobStatus) : Bool :=
  isFailed status || isSucceeded status

/-- A condition carries the canonical reason for its type: whenever its
status is True, each of the four reason constants inserted by
`updateStatusSingle` implies the matching condition type.  Every condition
the state machine itself produces satisfies this. -/
def reasonCanonical (c : MXJobCondition) : Prop :=
  c.status = ConditionStatus.conditionTrue →
    ((c.reason = mxJobRunningReason → c.ctype = MXJobConditionType.running) ∧
     (c.reason = mxJobRestartingReason → c.ctype = MXJobConditionType.restarting) ∧
     (c.reason = mxJobSucceededReason → c.ctype = MXJobConditionType.succeeded) ∧
     (c.reason = mxJobFailedReason → c.ctype = MXJobConditionType.failed))

instance : DecidablePred reasonCanonical := fun c => by
  unfold reasonCanonical; infer_instance

/-- All conditions of a history carry canonical reasons. -/
def reasonsOK (l : List MXJobCondition) : Prop := ∀ c ∈ l, reasonCanonical c

instance : DecidablePred reasonsOK := fun l => List.decidableBAll _ l

theorem setCondition_of_completed (s : MXJobStatus) (c : MXJobCondition)
    (h : (isFailed s || isSucceeded s) = true) : setCondition s c = s := by
  unfold setCondition
  simp [h]

theorem setCondition_noop (s : MXJobStatus) (c cc : MXJobCondition)
    (hg : s.conditions.getLast? = some cc) (h1 : cc.status = c.status)
    (h2 : cc.reason = c.reason) : setCondition s c = s := by
  unfold setCondition getCondition
  rw [hg]
  split
  · rfl
  · simp [h1, h2]

theorem setCondition_of_getLast_none (s : MXJobStatus) (c : MXJobCondition)
    (hc : (isFailed s || isSucceeded s) = false)
    (hg : s.conditions.getLast? = none) :
    setCondition s c =
      { s with conditions := filterOutCondition s.conditions c.ctype ++ [c] } := by
  unfold setCondition getCondition
  rw [hg, hc]
  simp

theorem setCondition_proceed_same_status (s : MXJobStatus)
    (c cc : MXJobCondition) (hc : (isFailed s || isSucceeded s) = false)
    (hg : s.conditions.getLast? = some cc) (h1 : cc.status = c.status)
    (h2 : cc.reason ≠ c.reason) :
    setCondition s c =
      { s with conditions := filterOutCondition s.conditions c.ctype ++
          [{ c with lastTransitionTime := cc.lastTransitionTime }] } := by
  unfold setCondition getCondition
  rw [hg, hc]
  simp [h1, h2]

theorem setCondition_proceed_diff_status (s : MXJobStatus)
    (c cc : MXJobCondition) (hc : (isFailed s || isSucceeded s) = false)
    (hg : s.conditions.getLast? = some cc) (h1 : cc.status ≠ c.status) :
    setCondition s c =
      { s with conditions := filterOutCondition s.conditions c.ctype ++ [c] } := by
  unfold setCondition getCondition
  rw [hg, hc]
  simp [h1]

/-! ## Structure of filterOutCondition -/

theorem filterOutCondition_append (l m : List MXJobCondition)
    (t : MXJobConditionType) :
    filterOutCondition (l ++ m) t =
      filterOutCondition l t ++ filterOutCondition m t := by
  induction l with
  | nil => simp [filterOutCondition]
  | cons c rest ih =>
    simp only [List.cons_append, filterOutCondition]
    split_ifs <;> simp [ih]

theorem filterOutCondition_running_eq_filter (l : List MXJobCondition) :
    filterOutCondition l MXJobConditionType.running =
      l.filter fun d =>
        decide (d.ctype ≠ MXJobConditionType.running ∧
          d.ctype ≠ MXJobConditionType.restarting) := by
  induction l with
  | nil => simp [filterOutCondition]
  | cons c rest ih =>
    simp only [filterOutCondition, List.filter_cons]
    rcases hc : c.ctype <;> simp [hc, ih]

theorem filterOutCondition_restarting_eq_filter (l : List MXJobCondition) :
    filterOutCondition l MXJobConditionType.restarting =
      l.filter fun d =>
        decide (d.ctype ≠ MXJobConditionType.running ∧
          d.ctype ≠ MXJobConditionType.restarting) := by
  induction l with
  | nil => simp [filterOutCondition]
  | cons c rest ih =>
    simp only [filterOutCondition, List.filter_cons]
    rcases hc : c.ctype <;> simp [hc, ih]

theorem filterOutCondition_running_eq_restarting (l : List MXJobCondition) :
    filterOutCondition l MXJobConditionType.running =
      filterOutCondition l MXJobConditionType.restarting := by
  rw [filterOutCondition_running_eq_filter,
    filterOutCondition_restarting_eq_filter]

theorem filterOutCondition_running_idem (l : List MXJobCondition) :
    filterOutCondition (filterOutCondition l MXJobConditionType.running)
      MXJobConditionType.running =
      filterOutCondition l MXJobConditionType.running := by
  simp [filterOutCondition_running_eq_filter, List.filter_filter]

theorem mem_filterOutCondition_running (l : List MXJobCondition)
    (d : MXJobCondition)
    (hd : d ∈ filterOutCondition l MXJobConditionType.running) :
    d.ctype ≠ MXJobConditionType.running ∧
      d.ctype ≠ MXJobConditionType.restarting := by
  rw [filterOutCondition_running_eq_filter] at hd
  have := List.of_mem_filter hd
  simpa using this

theorem filterOutCondition_single_running (a : MXJobCondition)
    (ha : a.ctype = MXJobConditionType.running ∨
      a.ctype = MXJobConditionType.restarting) :
    filterOutCondition [a] MXJobConditionType.running = [] := by
  rw [filterOutCondition_running_eq_filter]
  rcases ha with h | h <;> simp [h]

/-! ## Frame lemmas: setCondition touches only the conditions list -/

theorem setCondition_startTime (s : MXJobStatus) (c : MXJobCondition) :
    (setCondition s c).startTime = s.startTime := by
  unfold setCondition
  split
  · rfl
  · split
    · split
      · rfl
      · rfl
    · rfl

theorem setCondition_completionTime (s : MXJobStatus) (c : MXJobCondition) :
    (setCondition s c).completionTime = s.completionTime := by
  unfold setCondition
  split
  · rfl
  · split
    · split
      · rfl
      · rfl
    · rfl

theorem setCondition_mxReplicaStatuses (s : MXJobStatus) (c : MXJobCondition) :
    (setCondition s c).mxReplicaStatuses = s.mxReplicaStatuses := by
  unfold setCondition
  split
  · rfl
  · split
    · split
      · rfl
      · rfl
    · rfl

theorem setStartTime_completionTime (s : MXJobStatus) (now : Nat) :
    (setStartTime s now).completionTime = s.completionTime := by
  unfold setStartTime; split <;> rfl

theorem setStartTime_conditions (s : MXJobStatus) (now : Nat) :
    (setStartTime s now).conditions = s.conditions := by
  unfold setStartTime; split <;> rfl

theorem setStartTime_mxReplicaStatuses (s : MXJobStatus) (now : Nat) :
    (setStartTime s now).mxReplicaStatuses = s.mxReplicaStatuses := by
  unfold setStartTime; split <;> rfl

theorem setStartTime_isSome (s : MXJobStatus) (now : Nat) :
    (setStartTime s now).startTime ≠ none := by
  unfold setStartTime
  split <;> simp_all

theorem setStartTime_of_isSome (s : MXJobStatus) (now : Nat)
    (h : s.startTime ≠ none) : setStartTime s now = s := by
  unfold setStartTime
  split <;> simp_all

theorem setCompletionTimeIfNil_startTime (s : MXJobStatus) (now : Nat) :
    (setCompletionTimeIfNil s now).startTime = s.startTime := by
  unfold setCompletionTimeIfNil; split <;> rfl

theorem setCompletionTimeIfNil_conditions (s : MXJobStatus) (now : Nat) :
    (setCompletionTimeIfNil s now).conditions = s.conditions := by
  unfold setCompletionTimeIfNil; split <;> rfl

theorem setCompletionTimeIfNil_mxReplicaStatuses (s : MXJobStatus) (now : Nat) :
    (setCompletionTimeIfNil s now).mxReplicaStatuses = s.mxReplicaStatuses := by
  unfold setCompletionTimeIfNil; split <;> rfl

theorem setCompletionTimeIfNil_isSome (s : MXJobStatus) (now : Nat) :
    (setCompletionTimeIfNil s now).completionTime ≠ none := by
  unfold setCompletionTimeIfNil
  split <;> simp_all

theorem setCompletionTimeIfNil_of_isSome (s : MXJobStatus) (now : Nat)
    (h : s.completionTime ≠ none) : setCompletionTimeIfNil s now = s := by
  unfold setCompletionTimeIfNil
  split <;> simp_all

/-! ## completed: dependence on conditions only, and invariance -/

theorem hasCondition_only_conditions (s t : MXJobStatus)
    (ct : MXJobConditionType) (h : s.conditions = t.conditions) :
    hasCondition s ct = hasCondition t ct := by
  unfold hasCondition
  rw [h]

theorem completed_only_conditions (s t : MXJobStatus)
    (h : s.conditions = t.conditions) : completed s = completed t := by
  unfold completed isFailed isSucceeded
  rw [hasCondition_only_conditions s t _ h, hasCondition_only_conditions s t _ h]

theorem completed_of_completed_setCondition (s : MXJobStatus)
    (c : MXJobCondition) (h : completed s = true) :
    completed (setCondition s c) = true := by
  unfold completed at h
  rw [setCondition_of_completed s c h]
  unfold completed
  exact h

/-! ## setCondition: idempotence of a single insertion, completion facts -/

theorem hasCondition_append_single (l : List MXJobCondition)
    (a : MXJobCondition) (ct : MXJobConditionType) :
    ((l ++ [a]).any fun c =>
        decide (c.ctype = ct ∧ c.status = ConditionStatus.conditionTrue)) =
      ((l.any fun c =>
        decide (c.ctype = ct ∧ c.status = ConditionStatus.conditionTrue)) ||
        decide (a.ctype = ct ∧ a.status = ConditionStatus.conditionTrue)) := by
  simp [List.any_append]

theorem any_filterOutCondition_rr (l : List MXJobCondition)
    (ct : MXJobConditionType) (t2 : MXJobConditionType)
    (hct : ct ≠ MXJobConditionType.running ∧
      ct ≠ MXJobConditionType.restarting)
    (ht2 : t2 = MXJobConditionType.running ∨
      t2 = MXJobConditionType.restarting) :
    ((filterOutCondition l t2).any fun c =>
        decide (c.ctype = ct ∧ c.status = ConditionStatus.conditionTrue)) =
      (l.any fun c =>
        decide (c.ctype = ct ∧ c.status = ConditionStatus.conditionTrue)) := by
  have hrw : filterOutCondition l t2 =
      l.filter fun d =>
        decide (d.ctype ≠ MXJobConditionType.running ∧
          d.ctype ≠ MXJobConditionType.restarting) := by
    rcases ht2 with h | h <;> rw [h]
    · exact filterOutCondition_running_eq_filter l
    · exact filterOutCondition_restarting_eq_filter l
  rw [hrw, List.any_filter]
  have hfun : (fun a : MXJobCondition =>
      decide (a.ctype ≠ MXJobConditionType.running ∧
        a.ctype ≠ MXJobConditionType.restarting) &&
      decide (a.ctype = ct ∧ a.status = ConditionStatus.conditionTrue)) =
      fun c => decide (c.ctype = ct ∧
        c.status = ConditionStatus.conditionTrue) := by
    funext a
    by_cases ha : a.ctype = ct
    · simp [ha, hct.1, hct.2]
    · simp [ha]
  rw [hfun]

theorem completed_setCondition_rr (s : MXJobStatus) (c : MXJobCondition)
    (hct : c.ctype = MXJobConditionType.running ∨
      c.ctype = MXJobConditionType.restarting) :
    completed (setCondition s c) = completed s := by
  by_cases h : (isFailed s || isSucceeded s) = true
  · rw [setCondition_of_completed s c h]
  · have key : ∀ c2 : MXJobCondition, c2.ctype = c.ctype →
        completed { s with
          conditions := filterOutCondition s.conditions c.ctype ++ [c2] } =
          completed s := by
      intro c2 hc2
      have hc2' : c2.ctype ≠ MXJobConditionType.failed ∧
          c2.ctype ≠ MXJobConditionType.succeeded := by
        rw [hc2]
        rcases hct with h1 | h1 <;> rw [h1] <;> exact ⟨by simp, by simp⟩
      unfold completed isFailed isSucceeded hasCondition
      simp only [List.any_append]
      have e1 : (List.any [c2] fun c3 =>
          decide (c3.ctype = MXJobConditionType.failed ∧
            c3.status = ConditionStatus.conditionTrue)) = false := by
        simp [hc2'.1]
      have e2 : (List.any [c2] fun c3 =>
          decide (c3.ctype = MXJobConditionType.succeeded ∧
            c3.status = ConditionStatus.conditionTrue)) = false := by
        simp [hc2'.2]
      rw [e1, e2, Bool.or_false, Bool.or_false,
        any_filterOutCondition_rr _ _ _ (by simp) hct,
        any_filterOutCondition_rr _ _ _ (by simp) hct]
    rw [Bool.not_eq_true] at h
    unfold setCondition getCondition
    rw [h]
    simp only [Bool.false_eq_true, if_false]
    split
    next cc hg2 =>
      split
      · rfl
      · have hcty : (if cc.status = c.status then
            { c with lastTransitionTime := cc.lastTransitionTime }
            else c).ctype = c.ctype := by split <;> rfl
        rw [hcty]
        exact key _ hcty
    next hg2 => exact key c rfl

theorem setCondition_idem (s : MXJobStatus) (c : MXJobCondition) :
    setCondition (setCondition s c) c = setCondition s c := by
  by_cases h : (isFailed s || isSucceeded s) = true
  · rw [setCondition_of_completed s c h, setCondition_of_completed s c h]
  · rw [Bool.not_eq_true] at h
    by_cases h2 : (isFailed (setCondition s c) ||
        isSucceeded (setCondition s c)) = true
    · exact setCondition_of_completed _ c h2
    · rcases hg : s.conditions.getLast? with _ | cc
      · rw [setCondition_of_getLast_none s c h hg]
        apply setCondition_noop _ c c _ rfl rfl
        simp [List.getLast?_concat]
      · by_cases hno : cc.status = c.status ∧ cc.reason = c.reason
        · rw [setCondition_noop s c cc hg hno.1 hno.2,
            setCondition_noop s c cc hg hno.1 hno.2]
        · by_cases hst : cc.status = c.status
          · have hre : cc.reason ≠ c.reason := fun hr => hno ⟨hst, hr⟩
            rw [setCondition_proceed_same_status s c cc h hg hst hre]
            apply setCondition_noop _ c
              { c with lastTransitionTime := cc.lastTransitionTime } _ rfl rfl
            simp [List.getLast?_concat]
          · rw [setCondition_proceed_diff_status s c cc h hg hst]
            apply setCondition_noop _ c c _ rfl rfl
            simp [List.getLast?_concat]

/-! ## Landing of terminal inserts, and preservation of canonical reasons -/

theorem completed_setCondition_terminal (s : MXJobStatus)
    (t : MXJobConditionType) (r m : String) (now : Nat)
    (ht : (t = MXJobConditionType.succeeded ∧ r = mxJobSucceededReason) ∨
      (t = MXJobConditionType.failed ∧ r = mxJobFailedReason))
    (hok : reasonsOK s.conditions) :
    completed (setCondition s (newCondition t r m now)) = true := by
  by_cases h : (isFailed s || isSucceeded s) = true
  · rw [setCondition_of_completed s _ h]
    unfold completed
    exact h
  · rw [Bool.not_eq_true] at h
    have hland : ∀ c2 : MXJobCondition, c2.ctype = t →
        c2.status = ConditionStatus.conditionTrue →
        completed { s with
          conditions := filterOutCondition s.conditions
            (newCondition t r m now).ctype ++ [c2] } = true := by
      intro c2 h1 h2
      unfold completed isFailed isSucceeded hasCondition
      simp only [List.any_append]
      rcases ht with ⟨ht1, _⟩ | ⟨ht1, _⟩ <;> rw [ht1] at h1 <;>
        simp [List.any_cons, h1, h2]
    rcases hg : s.conditions.getLast? with _ | cc
    · rw [setCondition_of_getLast_none s _ h hg]
      exact hland _ rfl rfl
    · by_cases hno : cc.status = (newCondition t r m now).status ∧
          cc.reason = (newCondition t r m now).reason
      · exfalso
        have hmem : cc ∈ s.conditions := List.mem_of_mem_getLast? hg
        have hcan := hok cc hmem hno.1
        have hcty : cc.ctype = t := by
          rcases ht with ⟨ht1, ht2⟩ | ⟨ht1, ht2⟩
          · rw [ht1]
            exact hcan.2.2.1 (by rw [hno.2, ht2]; rfl)
          · rw [ht1]
            exact hcan.2.2.2 (by rw [hno.2, ht2]; rfl)
        have : completed s = true := by
          unfold completed isFailed isSucceeded hasCondition
          rcases ht with ⟨ht1, _⟩ | ⟨ht1, _⟩ <;> rw [ht1] at hcty
          · refine Bool.or_eq_true_iff.mpr (Or.inr ?_)
            exact List.any_eq_true.mpr ⟨cc, hmem, by simp [hcty, hno.1, newCondition]⟩
          · refine Bool.or_eq_true_iff.mpr (Or.inl ?_)
            exact List.any_eq_true.mpr ⟨cc, hmem, by simp [hcty, hno.1, newCondition]⟩
        unfold completed at this
        rw [h] at this
        exact Bool.false_ne_true this
      · by_cases hst : cc.status = (newCondition t r m now).status
        · have hre : cc.reason ≠ (newCondition t r m now).reason :=
            fun hr => hno ⟨hst, hr⟩
          rw [setCondition_proceed_same_status s _ cc h hg hst hre]
          exact hland _ rfl rfl
        · rw [setCondition_proceed_diff_status s _ cc h hg hst]
          exact hland _ rfl rfl

theorem mem_filterOutCondition (l : List MXJobCondition)
    (t : MXJobConditionType) (d : MXJobCondition)
    (hd : d ∈ filterOutCondition l t) :
    d ∈ l ∨ ∃ d0 ∈ l, d = { d0 with status := ConditionStatus.conditionFalse } := by
  induction l with
  | nil => simp [filterOutCondition] at hd
  | cons c rest ih =>
    simp only [filterOutCondition] at hd
    split_ifs at hd with h1 h2 h3 h4
    · rcases ih hd with h | ⟨d0, hd0, he⟩
      · exact Or.inl (List.mem_cons_of_mem c h)
      · exact Or.inr ⟨d0, List.mem_cons_of_mem c hd0, he⟩
    · rcases ih hd with h | ⟨d0, hd0, he⟩
      · exact Or.inl (List.mem_cons_of_mem c h)
      · exact Or.inr ⟨d0, List.mem_cons_of_mem c hd0, he⟩
    · rcases ih hd with h | ⟨d0, hd0, he⟩
      · exact Or.inl (List.mem_cons_of_mem c h)
      · exact Or.inr ⟨d0, List.mem_cons_of_mem c hd0, he⟩
    · rcases List.mem_cons.mp hd with he | hm
      · exact Or.inr ⟨c, List.mem_cons_self c rest, he⟩
      · rcases ih hm with h | ⟨d0, hd0, he⟩
        · exact Or.inl (List.mem_cons_of_mem c h)
        · exact Or.inr ⟨d0, List.mem_cons_of_mem c hd0, he⟩
    · rcases List.mem_cons.mp hd with he | hm
      · exact Or.inl (he ▸ List.mem_cons_self c rest)
      · rcases ih hm with h | ⟨d0, hd0, he⟩
        · exact Or.inl (List.mem_cons_of_mem c h)
        · exact Or.inr ⟨d0, List.mem_cons_of_mem c hd0, he⟩

theorem reasonCanonical_flip (d0 : MXJobCondition) :
    reasonCanonical { d0 with status := ConditionStatus.conditionFalse } := by
  intro hst
  exact absurd hst (by simp)

theorem reasonsOK_setCondition (s : MXJobStatus) (c : MXJobCondition)
    (hok : reasonsOK s.conditions) (hc : reasonCanonical c) :
    reasonsOK (setCondition s c).conditions := by
  have key : ∀ c2 : MXJobCondition, reasonCanonical c2 →
      reasonsOK (filterOutCondition s.conditions c.ctype ++ [c2]) := by
    intro c2 hc2 d hd
    rcases List.mem_append.mp hd with hm | hm
    · rcases mem_filterOutCondition _ _ _ hm with h | ⟨d0, _, he⟩
      · exact hok d h
      · rw [he]
        exact reasonCanonical_flip d0
    · rw [List.mem_singleton.mp hm]
      exact hc2
  by_cases h : (isFailed s || isSucceeded s) = true
  · rw [setCondition_of_completed s c h]
    exact hok
  · rw [Bool.not_eq_true] at h
    rcases hg : s.conditions.getLast? with _ | cc
    · rw [setCondition_of_getLast_none s c h hg]
      exact key c hc
    · by_cases hno : cc.status = c.status ∧ cc.reason = c.reason
      · rw [setCondition_noop s c cc hg hno.1 hno.2]
        exact hok
      · by_cases hst : cc.status = c.status
        · rw [setCondition_proceed_same_status s c cc h hg hst
            (fun hr => hno ⟨hst, hr⟩)]
          refine key _ ?_
          intro h2
          exact hc h2
        · rw [setCondition_proceed_diff_status s c cc h hg hst]
          exact key c hc

/-! ## The Running / Restarting churn -/

/-- Proof-layer abbreviation: the transition time that an insertion carries
over from the last element of the history (status.go:230-232): the previous
transition time when the last condition also has status True, else the
fresh time. -/
def carryTime (s : MXJobStatus) (now : Nat) : Nat :=
  match s.conditions.getLast? with
  | some cc =>
    if cc.status = ConditionStatus.conditionTrue then cc.lastTransitionTime
    else now
  | none => now

theorem filterOutCondition_restarting_single (a : MXJobCondition)
    (ha : a.ctype = MXJobConditionType.running ∨
      a.ctype = MXJobConditionType.restarting) :
    filterOutCondition [a] MXJobConditionType.restarting = [] := by
  rw [← filterOutCondition_running_eq_restarting]
  exact filterOutCondition_single_running a ha

theorem filterOutCondition_restarting_idem (l : List MXJobCondition) :
    filterOutCondition (filterOutCondition l MXJobConditionType.restarting)
      MXJobConditionType.restarting =
      filterOutCondition l MXJobConditionType.restarting := by
  rw [← filterOutCondition_running_eq_restarting,
    ← filterOutCondition_running_eq_restarting]
  exact filterOutCondition_running_idem l


/-- Proof-layer abbreviation: the Restarting condition as it is stored after
an insertion that carried over the transition time `tau`. -/
def restartingCondAt (m : String) (now tau : Nat) : MXJobCondition :=
  { ctype := MXJobConditionType.restarting
    status := ConditionStatus.conditionTrue
    lastUpdateTime := now
    lastTransitionTime := tau
    reason := mxJobRestartingReason
    message := m }

theorem setCondition_r_rst_shape (s : MXJobStatus) (mR mRst : String)
    (now : Nat) (hterm : (isFailed s || isSucceeded s) = false) :
    setCondition
        (setCondition s
          (newCondition MXJobConditionType.running mxJobRunningReason mR now))
        (newCondition MXJobConditionType.restarting mxJobRestartingReason
          mRst now) =
      { s with conditions :=
          filterOutCondition s.conditions MXJobConditionType.restarting ++
            [restartingCondAt mRst now (carryTime s now)] } := by
  have hreason : mxJobRunningReason ≠ mxJobRestartingReason := by decide
  have hc1 : completed (setCondition s
      (newCondition MXJobConditionType.running mxJobRunningReason mR now))
      = false := by
    rw [completed_setCondition_rr s _ (Or.inl rfl)]
    exact hterm
  rcases hg : s.conditions.getLast? with _ | cc
  · have hnil : s.conditions = [] := List.getLast?_eq_none_iff.mp hg
    have hct : carryTime s now = now := by unfold carryTime; rw [hg]
    have heq1 := setCondition_of_getLast_none s
      (newCondition MXJobConditionType.running mxJobRunningReason mR now)
      hterm hg
    rw [heq1] at hc1 ⊢
    unfold completed at hc1
    rw [setCondition_proceed_same_status _
      (newCondition MXJobConditionType.restarting mxJobRestartingReason mRst now)
      (newCondition MXJobConditionType.running mxJobRunningReason mR now) hc1
      (by simp [List.getLast?_concat]) rfl hreason]
    rw [hct]
    dsimp only [newCondition]
    simp [hnil, filterOutCondition, restartingCondAt]
  · by_cases hnoR : cc.status =
        (newCondition MXJobConditionType.running mxJobRunningReason mR now).status ∧
        cc.reason =
        (newCondition MXJobConditionType.running mxJobRunningReason mR now).reason
    · have hcs : cc.status = ConditionStatus.conditionTrue := hnoR.1
      have hct : carryTime s now = cc.lastTransitionTime := by
        unfold carryTime
        rw [hg]
        exact if_pos hcs
      rw [setCondition_noop s _ cc hg hnoR.1 hnoR.2]
      rw [setCondition_proceed_same_status s
        (newCondition MXJobConditionType.restarting mxJobRestartingReason mRst now)
        cc hterm hg hnoR.1 (by rw [hnoR.2]; exact hreason)]
      rw [hct]
      dsimp only [newCondition]
      simp [restartingCondAt]
    · by_cases hstR : cc.status =
          (newCondition MXJobConditionType.running mxJobRunningReason mR now).status
      · have hre : cc.reason ≠
            (newCondition MXJobConditionType.running mxJobRunningReason mR now).reason :=
          fun hr => hnoR ⟨hstR, hr⟩
        have hcs : cc.status = ConditionStatus.conditionTrue := hstR
        have hct : carryTime s now = cc.lastTransitionTime := by
          unfold carryTime
          rw [hg]
          exact if_pos hcs
        have heq1 := setCondition_proceed_same_status s _ cc hterm hg hstR hre
        rw [heq1] at hc1 ⊢
        unfold completed at hc1
        rw [setCondition_proceed_same_status _
          (newCondition MXJobConditionType.restarting mxJobRestartingReason mRst now)
          ({ newCondition MXJobConditionType.running mxJobRunningReason mR now
            with lastTransitionTime := cc.lastTransitionTime }) hc1
          (by simp [List.getLast?_concat]) rfl hreason]
        dsimp only [newCondition]
        rw [filterOutCondition_append,
          filterOutCondition_restarting_single _ (Or.inl rfl),
          ← filterOutCondition_running_eq_restarting,
          filterOutCondition_running_idem, hct]
        simp [restartingCondAt, filterOutCondition_running_eq_restarting]
      · have hcs : ¬(cc.status = ConditionStatus.conditionTrue) := hstR
        have hct : carryTime s now = now := by
          unfold carryTime
          rw [hg]
          exact if_neg hcs
        have heq1 := setCondition_proceed_diff_status s _ cc hterm hg hstR
        rw [heq1] at hc1 ⊢
        unfold completed at hc1
        rw [setCondition_proceed_same_status _
          (newCondition MXJobConditionType.restarting mxJobRestartingReason mRst now)
          (newCondition MXJobConditionType.running mxJobRunningReason mR now) hc1
          (by simp [List.getLast?_concat]) rfl hreason]
        dsimp only [newCondition]
        rw [filterOutCondition_append,
          filterOutCondition_restarting_single _ (Or.inl rfl),
          ← filterOutCondition_running_eq_restarting,
          filterOutCondition_running_idem, hct]
        simp [restartingCondAt, filterOutCondition_running_eq_restarting]

theorem setCondition_churn (s : MXJobStatus) (mR mRst : String) (now : Nat) :
    setCondition
        (setCondition
          (setCondition
            (setCondition s
              (newCondition MXJobConditionType.running mxJobRunningReason mR now))
            (newCondition MXJobConditionType.restarting mxJobRestartingReason
              mRst now))
          (newCondition MXJobConditionType.running mxJobRunningReason mR now))
        (newCondition MXJobConditionType.restarting mxJobRestartingReason
          mRst now) =
      setCondition
        (setCondition s
          (newCondition MXJobConditionType.running mxJobRunningReason mR now))
        (newCondition MXJobConditionType.restarting mxJobRestartingReason
          mRst now) := by
  by_cases hterm : (isFailed s || isSucceeded s) = true
  · have e1 := setCondition_of_completed s
      (newCondition MXJobConditionType.running mxJobRunningReason mR now) hterm
    have e2 := setCondition_of_completed s
      (newCondition MXJobConditionType.restarting mxJobRestartingReason mRst now)
      hterm
    rw [e1, e2, e1, e2]
  · rw [Bool.not_eq_true] at hterm
    have hc2 : completed (setCondition
        (setCondition s
          (newCondition MXJobConditionType.running mxJobRunningReason mR now))
        (newCondition MXJobConditionType.restarting mxJobRestartingReason
          mRst now)) = false := by
      rw [completed_setCondition_rr _ _ (Or.inr rfl),
        completed_setCondition_rr _ _ (Or.inl rfl)]
      exact hterm
    rw [setCondition_r_rst_shape s mR mRst now hterm] at hc2 ⊢
    unfold completed at hc2
    rw [setCondition_r_rst_shape _ mR mRst now hc2]
    have hfa : filterOutCondition
        (filterOutCondition s.conditions MXJobConditionType.restarting ++
          [restartingCondAt mRst now (carryTime s now)])
        MXJobConditionType.restarting =
        filterOutCondition s.conditions MXJobConditionType.restarting := by
      rw [filterOutCondition_append,
        filterOutCondition_restarting_single _ (Or.inr rfl),
        filterOutCondition_restarting_idem]
      simp
    have hca : carryTime
        { s with
          conditions :=
            filterOutCondition s.conditions MXJobConditionType.restarting ++
              [restartingCondAt mRst now (carryTime s now)] } now =
        carryTime s now := by
      unfold carryTime
      dsimp only
      rw [List.getLast?_concat]
      simp [restartingCondAt]
    dsimp only
    rw [hfa, hca]

/-! ## Evaluation and frame lemmas for the three blocks of updateStatusSingle -/

theorem updateMXJobConditions_of_completed (s : MXJobStatus)
    (t : MXJobConditionType) (r m : String) (now : Nat)
    (h : completed s = true) : updateMXJobConditions s t r m now = s := by
  unfold updateMXJobConditions
  exact setCondition_of_completed s _ h

theorem updateMXJobConditions_startTime (s : MXJobStatus)
    (t : MXJobConditionType) (r m : String) (now : Nat) :
    (updateMXJobConditions s t r m now).startTime = s.startTime :=
  setCondition_startTime s _

theorem updateMXJobConditions_completionTime (s : MXJobStatus)
    (t : MXJobConditionType) (r m : String) (now : Nat) :
    (updateMXJobConditions s t r m now).completionTime = s.completionTime :=
  setCondition_completionTime s _

theorem updateMXJobConditions_mxReplicaStatuses (s : MXJobStatus)
    (t : MXJobConditionType) (r m : String) (now : Nat) :
    (updateMXJobConditions s t r m now).mxReplicaStatuses =
      s.mxReplicaStatuses :=
  setCondition_mxReplicaStatuses s _

theorem completed_setCompletionTimeIfNil (s : MXJobStatus) (now : Nat) :
    completed (setCompletionTimeIfNil s now) = completed s :=
  completed_only_conditions _ _ (setCompletionTimeIfNil_conditions s now)

theorem completed_setStartTime (s : MXJobStatus) (now : Nat) :
    completed (setStartTime s now) = completed s :=
  completed_only_conditions _ _ (setStartTime_conditions s now)

theorem topologyStep_sched_succ (n : String) (rt : MXReplicaType)
    (e r : Int) (sc : Bool) (now : Nat) (s : MXJobStatus)
    (hrt : rt = MXReplicaType.scheduler) (he : e = 0) :
    topologyStep n true rt e r sc now s =
      updateMXJobConditions
        (setCompletionTimeIfNil
          (if r > 0 then
            updateMXJobConditions s MXJobConditionType.running
              mxJobRunningReason (runningMsg n) now
          else s) now)
        MXJobConditionType.succeeded mxJobSucceededReason (succeededMsg n)
        now := by
  subst hrt he
  unfold topologyStep
  simp

theorem topologyStep_sched_nosucc (n : String) (rt : MXReplicaType)
    (e r : Int) (sc : Bool) (now : Nat) (s : MXJobStatus)
    (hrt : rt = MXReplicaType.scheduler) (he : ¬(e = 0)) :
    topologyStep n true rt e r sc now s =
      if r > 0 then
        updateMXJobConditions s MXJobConditionType.running mxJobRunningReason
          (runningMsg n) now
      else s := by
  subst hrt
  unfold topologyStep
  simp [he]

theorem topologyStep_sched_other (n : String) (rt : MXReplicaType)
    (e r : Int) (sc : Bool) (now : Nat) (s : MXJobStatus)
    (hrt : rt ≠ MXReplicaType.scheduler) :
    topologyStep n true rt e r sc now s = s := by
  unfold topologyStep
  simp [hrt]

theorem topologyStep_nosched_succ (n : String) (rt : MXReplicaType)
    (e r : Int) (sc : Bool) (now : Nat) (s : MXJobStatus)
    (hrt : rt = MXReplicaType.worker ∨ rt = MXReplicaType.tuner)
    (h : e = 0 ∨ sc = true) :
    topologyStep n false rt e r sc now s =
      updateMXJobConditions (setCompletionTimeIfNil s now)
        MXJobConditionType.succeeded mxJobSucceededReason (succeededMsg n)
        now := by
  unfold topologyStep
  simp [hrt, h]

theorem topologyStep_nosched_nosucc (n : String) (rt : MXReplicaType)
    (e r : Int) (sc : Bool) (now : Nat) (s : MXJobStatus)
    (hrt : rt = MXReplicaType.worker ∨ rt = MXReplicaType.tuner)
    (h : ¬(e = 0 ∨ sc = true)) :
    topologyStep n false rt e r sc now s =
      if r > 0 then
        updateMXJobConditions s MXJobConditionType.running mxJobRunningReason
          (runningMsg n) now
      else s := by
  unfold topologyStep
  simp only [Bool.false_eq_true, if_false]
  rw [if_pos hrt, if_neg h]

theorem topologyStep_nosched_other (n : String) (rt : MXReplicaType)
    (e r : Int) (sc : Bool) (now : Nat) (s : MXJobStatus)
    (hrt : ¬(rt = MXReplicaType.worker ∨ rt = MXReplicaType.tuner)) :
    topologyStep n false rt e r sc now s = s := by
  unfold topologyStep
  simp [hrt]

theorem failureStep_pos_restart (n : String) (f : Int) (now : Nat)
    (s : MXJobStatus) (hf : f > 0) :
    failureStep n f true now s =
      updateMXJobConditions s MXJobConditionType.restarting
        mxJobRestartingReason (restartingMsg n) now := by
  unfold failureStep
  simp [hf]

theorem failureStep_pos_norestart (n : String) (f : Int) (now : Nat)
    (s : MXJobStatus) (hf : f > 0) :
    failureStep n f false now s =
      updateMXJobConditions (setCompletionTimeIfNil s now)
        MXJobConditionType.failed mxJobFailedReason (failedMsg n) now := by
  unfold failureStep
  simp [hf]

theorem failureStep_nonpos (n : String) (f : Int) (re : Bool) (now : Nat)
    (s : MXJobStatus) (hf : ¬(f > 0)) : failureStep n f re now s = s := by
  unfold failureStep
  simp [hf]

theorem topologyStep_startTime (n : String) (cs : Bool) (rt : MXReplicaType)
    (e r : Int) (sc : Bool) (now : Nat) (s : MXJobStatus) :
    (topologyStep n cs rt e r sc now s).startTime = s.startTime := by
  unfold topologyStep updateMXJobConditions
  split_ifs <;>
    simp [setCondition_startTime, setCompletionTimeIfNil_startTime]

theorem topologyStep_mxReplicaStatuses (n : String) (cs : Bool)
    (rt : MXReplicaType) (e r : Int) (sc : Bool) (now : Nat)
    (s : MXJobStatus) :
    (topologyStep n cs rt e r sc now s).mxReplicaStatuses =
      s.mxReplicaStatuses := by
  unfold topologyStep updateMXJobConditions
  split_ifs <;>
    simp [setCondition_mxReplicaStatuses, setCompletionTimeIfNil_mxReplicaStatuses]

theorem failureStep_startTime (n : String) (f : Int) (re : Bool) (now : Nat)
    (s : MXJobStatus) :
    (failureStep n f re now s).startTime = s.startTime := by
  unfold failureStep updateMXJobConditions
  split_ifs <;>
    simp [setCondition_startTime, setCompletionTimeIfNil_startTime]

theorem failureStep_mxReplicaStatuses (n : String) (f : Int) (re : Bool)
    (now : Nat) (s : MXJobStatus) :
    (failureStep n f re now s).mxReplicaStatuses = s.mxReplicaStatuses := by
  unfold failureStep updateMXJobConditions
  split_ifs <;>
    simp [setCondition_mxReplicaStatuses, setCompletionTimeIfNil_mxReplicaStatuses]

theorem topologyStep_of_completed (n : String) (cs : Bool)
    (rt : MXReplicaType) (e r : Int) (sc : Bool) (now : Nat)
    (s : MXJobStatus) (h : completed s = true) :
    topologyStep n cs rt e r sc now s = s ∨
      topologyStep n cs rt e r sc now s = setCompletionTimeIfNil s now := by
  have hins : ∀ t rs m, updateMXJobConditions s t rs m now = s :=
    fun t rs m => updateMXJobConditions_of_completed s t rs m now h
  have hins2 : ∀ t rs m, updateMXJobConditions (setCompletionTimeIfNil s now)
      t rs m now = setCompletionTimeIfNil s now := by
    intro t rs m
    refine updateMXJobConditions_of_completed _ t rs m now ?_
    rw [completed_setCompletionTimeIfNil]
    exact h
  unfold topologyStep
  split_ifs <;> simp [hins, hins2]

theorem failureStep_of_completed (n : String) (f : Int) (re : Bool)
    (now : Nat) (s : MXJobStatus) (h : completed s = true) :
    failureStep n f re now s = s ∨
      failureStep n f re now s = setCompletionTimeIfNil s now := by
  have hins : ∀ t rs m, updateMXJobConditions s t rs m now = s :=
    fun t rs m => updateMXJobConditions_of_completed s t rs m now h
  have hins2 : ∀ t rs m, updateMXJobConditions (setCompletionTimeIfNil s now)
      t rs m now = setCompletionTimeIfNil s now := by
    intro t rs m
    refine updateMXJobConditions_of_completed _ t rs m now ?_
    rw [completed_setCompletionTimeIfNil]
    exact h
  unfold failureStep
  split_ifs <;> simp [hins, hins2]

/-! ## Composite helpers towards idempotence of one reconciliation call -/

theorem reasonCanonical_running (m : String) (now : Nat) :
    reasonCanonical
      (newCondition MXJobConditionType.running mxJobRunningReason m now) := by
  intro _
  refine ⟨fun _ => rfl, fun hh => ?_, fun hh => ?_, fun hh => ?_⟩
  · exact absurd (show mxJobRunningReason = mxJobRestartingReason from hh)
      (by decide)
  · exact absurd (show mxJobRunningReason = mxJobSucceededReason from hh)
      (by decide)
  · exact absurd (show mxJobRunningReason = mxJobFailedReason from hh)
      (by decide)

theorem reasonCanonical_restarting (m : String) (now : Nat) :
    reasonCanonical
      (newCondition MXJobConditionType.restarting mxJobRestartingReason m now) := by
  intro _
  refine ⟨fun hh => ?_, fun _ => rfl, fun hh => ?_, fun hh => ?_⟩
  · exact absurd (show mxJobRestartingReason = mxJobRunningReason from hh)
      (by decide)
  · exact absurd (show mxJobRestartingReason = mxJobSucceededReason from hh)
      (by decide)
  · exact absurd (show mxJobRestartingReason = mxJobFailedReason from hh)
      (by decide)

theorem completed_updateMXJobConditions_succeeded (x : MXJobStatus)
    (m : String) (now : Nat) (hok : reasonsOK x.conditions) :
    completed (updateMXJobConditions x MXJobConditionType.succeeded
      mxJobSucceededReason m now) = true := by
  unfold updateMXJobConditions
  exact completed_setCondition_terminal x _ _ m now (Or.inl ⟨rfl, rfl⟩) hok

theorem completed_updateMXJobConditions_failed (x : MXJobStatus)
    (m : String) (now : Nat) (hok : reasonsOK x.conditions) :
    completed (updateMXJobConditions x MXJobConditionType.failed
      mxJobFailedReason m now) = true := by
  unfold updateMXJobConditions
  exact completed_setCondition_terminal x _ _ m now (Or.inr ⟨rfl, rfl⟩) hok

theorem pass_of_completed (n : String) (cs : Bool) (rtype : MXReplicaType)
    (e r f : Int) (sc restart : Bool) (now : Nat) (u : MXJobStatus)
    (hcomp : completed u = true) (hcpt : u.completionTime ≠ none) :
    failureStep n f restart now (topologyStep n cs rtype e r sc now u) = u := by
  have hT : topologyStep n cs rtype e r sc now u = u := by
    rcases topologyStep_of_completed n cs rtype e r sc now u hcomp with h2 | h2
    · exact h2
    · rw [setCompletionTimeIfNil_of_isSome _ _ hcpt] at h2
      exact h2
  rw [hT]
  rcases failureStep_of_completed n f restart now u hcomp with h2 | h2
  · exact h2
  · rw [setCompletionTimeIfNil_of_isSome _ _ hcpt] at h2
    exact h2

theorem failureStep_idem (n : String) (f : Int) (restart : Bool) (now : Nat)
    (st : MXJobStatus) (hok : reasonsOK st.conditions) :
    failureStep n f restart now (failureStep n f restart now st) =
      failureStep n f restart now st := by
  by_cases hf : f > 0
  · cases restart with
    | true =>
      rw [failureStep_pos_restart n f now st hf,
        failureStep_pos_restart n f now _ hf]
      unfold updateMXJobConditions
      exact setCondition_idem st _
    | false =>
      have hFeq := failureStep_pos_norestart n f now st hf
      have hcomp : completed (failureStep n f false now st) = true := by
        rw [hFeq]
        refine completed_updateMXJobConditions_failed _ _ now ?_
        rw [setCompletionTimeIfNil_conditions]
        exact hok
      have hcpt : (failureStep n f false now st).completionTime ≠ none := by
        rw [hFeq, updateMXJobConditions_completionTime]
        exact setCompletionTimeIfNil_isSome _ _
      rcases failureStep_of_completed n f false now _ hcomp with h2 | h2
      · exact h2
      · rw [setCompletionTimeIfNil_of_isSome _ _ hcpt] at h2
        exact h2
  · rw [failureStep_nonpos n f restart now _ hf,
      failureStep_nonpos n f restart now _ hf]

theorem failureStep_after_run_idem (n : String) (f : Int) (restart : Bool)
    (now : Nat) (st : MXJobStatus) (hok : reasonsOK st.conditions) :
    failureStep n f restart now
        (updateMXJobConditions
          (failureStep n f restart now
            (updateMXJobConditions st MXJobConditionType.running
              mxJobRunningReason (runningMsg n) now))
          MXJobConditionType.running mxJobRunningReason (runningMsg n) now) =
      failureStep n f restart now
        (updateMXJobConditions st MXJobConditionType.running
          mxJobRunningReason (runningMsg n) now) := by
  by_cases hf : f > 0
  · cases restart with
    | true =>
      rw [failureStep_pos_restart n f now _ hf,
        failureStep_pos_restart n f now _ hf]
      unfold updateMXJobConditions
      exact setCondition_churn st (runningMsg n) (restartingMsg n) now
    | false =>
      have hokR : reasonsOK (updateMXJobConditions st
          MXJobConditionType.running mxJobRunningReason
          (runningMsg n) now).conditions :=
        reasonsOK_setCondition st _ hok (reasonCanonical_running _ now)
      have hFeq := failureStep_pos_norestart n f now
        (updateMXJobConditions st MXJobConditionType.running
          mxJobRunningReason (runningMsg n) now) hf
      have hcomp : completed (failureStep n f false now
          (updateMXJobConditions st MXJobConditionType.running
            mxJobRunningReason (runningMsg n) now)) = true := by
        rw [hFeq]
        refine completed_updateMXJobConditions_failed _ _ now ?_
        rw [setCompletionTimeIfNil_conditions]
        exact hokR
      have hcpt : (failureStep n f false now
          (updateMXJobConditions st MXJobConditionType.running
            mxJobRunningReason (runningMsg n) now)).completionTime ≠ none := by
        rw [hFeq, updateMXJobConditions_completionTime]
        exact setCompletionTimeIfNil_isSome _ _
      have hR2 : updateMXJobConditions (failureStep n f false now
          (updateMXJobConditions st MXJobConditionType.running
            mxJobRunningReason (runningMsg n) now))
          MXJobConditionType.running mxJobRunningReason (runningMsg n) now =
          failureStep n f false now
          (updateMXJobConditions st MXJobConditionType.running
            mxJobRunningReason (runningMsg n) now) :=
        updateMXJobConditions_of_completed _ _ _ _ now hcomp
      rw [hR2]
      rcases failureStep_of_completed n f false now _ hcomp with h2 | h2
      · exact h2
      · rw [setCompletionTimeIfNil_of_isSome _ _ hcpt] at h2
        exact h2
  · rw [failureStep_nonpos n f restart now _ hf,
      failureStep_nonpos n f restart now _ hf]
    unfold updateMXJobConditions
    exact setCondition_idem st _

theorem pass_idem (n : String) (cs : Bool) (rtype : MXReplicaType)
    (e r f : Int) (sc restart : Bool) (now : Nat) (s0 : MXJobStatus)
    (hok : reasonsOK s0.conditions) :
    failureStep n f restart now
        (topologyStep n cs rtype e r sc now
          (setStartTime
            (failureStep n f restart now
              (topologyStep n cs rtype e r sc now (setStartTime s0 now)))
            now)) =
      failureStep n f restart now
        (topologyStep n cs rtype e r sc now (setStartTime s0 now)) := by
  have hokst : reasonsOK (setStartTime s0 now).conditions := by
    rw [setStartTime_conditions]
    exact hok
  have hustart : (failureStep n f restart now
      (topologyStep n cs rtype e r sc now
        (setStartTime s0 now))).startTime ≠ none := by
    rw [failureStep_startTime, topologyStep_startTime]
    exact setStartTime_isSome s0 now
  rw [setStartTime_of_isSome _ _ hustart]
  cases cs with
  | false =>
    by_cases hrt : rtype = MXReplicaType.worker ∨ rtype = MXReplicaType.tuner
    · by_cases hsucc : e = 0 ∨ sc = true
      · have hT : ∀ x, topologyStep n false rtype e r sc now x =
            updateMXJobConditions (setCompletionTimeIfNil x now)
              MXJobConditionType.succeeded mxJobSucceededReason
              (succeededMsg n) now :=
          fun x => topologyStep_nosched_succ n rtype e r sc now x hrt hsucc
        have hcompT : completed (topologyStep n false rtype e r sc now
            (setStartTime s0 now)) = true := by
          rw [hT]
          refine completed_updateMXJobConditions_succeeded _ _ now ?_
          rw [setCompletionTimeIfNil_conditions]
          exact hokst
        have hcptT : (topologyStep n false rtype e r sc now
            (setStartTime s0 now)).completionTime ≠ none := by
          rw [hT, updateMXJobConditions_completionTime]
          exact setCompletionTimeIfNil_isSome _ _
        have hFT : failureStep n f restart now
            (topologyStep n false rtype e r sc now (setStartTime s0 now)) =
            topologyStep n false rtype e r sc now (setStartTime s0 now) := by
          rcases failureStep_of_completed n f restart now _ hcompT with h2 | h2
          · exact h2
          · rw [setCompletionTimeIfNil_of_isSome _ _ hcptT] at h2
            exact h2
        rw [hFT]
        exact pass_of_completed n false rtype e r f sc restart now _ hcompT hcptT
      · by_cases hr : r > 0
        · have hT : ∀ x, topologyStep n false rtype e r sc now x =
              updateMXJobConditions x MXJobConditionType.running
                mxJobRunningReason (runningMsg n) now := fun x => by
            rw [topologyStep_nosched_nosucc n rtype e r sc now x hrt hsucc,
              if_pos hr]
          simp only [hT]
          exact failureStep_after_run_idem n f restart now _ hokst
        · have hT : ∀ x, topologyStep n false rtype e r sc now x = x :=
            fun x => by
              rw [topologyStep_nosched_nosucc n rtype e r sc now x hrt hsucc,
                if_neg hr]
          simp only [hT]
          exact failureStep_idem n f restart now _ hokst
    · have hT : ∀ x, topologyStep n false rtype e r sc now x = x :=
        fun x => topologyStep_nosched_other n rtype e r sc now x hrt
      simp only [hT]
      exact failureStep_idem n f restart now _ hokst
  | true =>
    by_cases hrt : rtype = MXReplicaType.scheduler
    · by_cases he : e = 0
      · have hT : ∀ x, topologyStep n true rtype e r sc now x =
            updateMXJobConditions
              (setCompletionTimeIfNil
                (if r > 0 then
                  updateMXJobConditions x MXJobConditionType.running
                    mxJobRunningReason (runningMsg n) now
                else x) now)
              MXJobConditionType.succeeded mxJobSucceededReason
              (succeededMsg n) now :=
          fun x => topologyStep_sched_succ n rtype e r sc now x hrt he
        have hcompT : completed (topologyStep n true rtype e r sc now
            (setStartTime s0 now)) = true := by
          rw [hT]
          refine completed_updateMXJobConditions_succeeded _ _ now ?_
          rw [setCompletionTimeIfNil_conditions]
          by_cases hr : r > 0
          · rw [if_pos hr]
            exact reasonsOK_setCondition _ _ hokst (reasonCanonical_running _ now)
          · rw [if_neg hr]
            exact hokst
        have hcptT : (topologyStep n true rtype e r sc now
            (setStartTime s0 now)).completionTime ≠ none := by
          rw [hT, updateMXJobConditions_completionTime]
          exact setCompletionTimeIfNil_isSome _ _
        have hFT : failureStep n f restart now
            (topologyStep n true rtype e r sc now (setStartTime s0 now)) =
            topologyStep n true rtype e r sc now (setStartTime s0 now) := by
          rcases failureStep_of_completed n f restart now _ hcompT with h2 | h2
          · exact h2
          · rw [setCompletionTimeIfNil_of_isSome _ _ hcptT] at h2
            exact h2
        rw [hFT]
        exact pass_of_completed n true rtype e r f sc restart now _ hcompT hcptT
      · by_cases hr : r > 0
        · have hT : ∀ x, topologyStep n true rtype e r sc now x =
              updateMXJobConditions x MXJobConditionType.running
                mxJobRunningReason (runningMsg n) now := fun x => by
            rw [topologyStep_sched_nosucc n rtype e r sc now x hrt he,
              if_pos hr]
          simp only [hT]
          exact failureStep_after_run_idem n f restart now _ hokst
        · have hT : ∀ x, topologyStep n true rtype e r sc now x = x :=
            fun x => by
              rw [topologyStep_sched_nosucc n rtype e r sc now x hrt he,
                if_neg hr]
          simp only [hT]
          exact failureStep_idem n f restart now _ hokst
    · have hT : ∀ x, topologyStep n true rtype e r sc now x = x :=
        fun x => topologyStep_sched_other n rtype e r sc now x hrt
      simp only [hT]
      exact failureStep_idem n f restart now _ hokst

/-! ## Concrete jobs used by counterexamples and witnesses -/

/-- The all-zero replica status map. -/
def emptyRS : MXReplicaType → MXReplicaStatus := fun _ => ⟨0, 0, 0⟩

/-- A condition of type Created whose reason string is forged to
`MXJobSucceeded`; no such condition is ever produced by the state machine
itself. -/
def forgedCreated : MXJobCondition :=
  { ctype := MXJobConditionType.created
    status := ConditionStatus.conditionTrue
    lastUpdateTime := 0
    lastTransitionTime := 0
    reason := "MXJobSucceeded"
    message := "m" }

/-- Scheduler-topology job whose history is the single forged condition and
whose scheduler group counts one succeeded and one failed pod. -/
def mxForged : MXJob :=
  { name := "j"
    containSchedulerSpec := true
    status :=
      { startTime := some 0
        completionTime := none
        mxReplicaStatuses := Function.update emptyRS MXReplicaType.scheduler ⟨0, 1, 1⟩
        conditions := [forgedCreated] } }

/-- C2 counterexample input: for `mxForged` with replicas = 1, restart and a
seven-tick clock, the first call leaves `[forgedCreated, Restarting]` and the
second call additionally appends `Succeeded`. -/
theorem updateStatusSingle_idem_counterexample :
    updateStatusSingle
        { mxForged with status :=
            updateStatusSingle mxForged MXReplicaType.scheduler 1 true false 7 }
        MXReplicaType.scheduler 1 true false 7 ≠
      updateStatusSingle mxForged MXReplicaType.scheduler 1 true false 7 := by
  intro h
  have h2 := congrArg MXJobStatus.conditions h
  have h3 : (updateStatusSingle
      { mxForged with status :=
          updateStatusSingle mxForged MXReplicaType.scheduler 1 true false 7 }
      MXReplicaType.scheduler 1 true false 7).conditions.length =
      (updateStatusSingle mxForged MXReplicaType.scheduler 1 true false
        7).conditions.length := congrArg List.length h2
  revert h3
  decide

/-- C2: amended idempotence.  For a job status all of whose live conditions
carry the canonical reason for their type (which holds for every status the
state machine itself produces), calling `updateStatusSingle` twice in
succession with the same inputs and the same observation instant yields the
same status as calling it once, including all condition timestamps. -/
theorem updateStatusSingle_idem (mxjob : MXJob) (rtype : MXReplicaType)
    (replicas : Int) (restart schedulerCompleted : Bool) (now : Nat)
    (hok : reasonsOK mxjob.status.conditions) :
    updateStatusSingle
        { mxjob with status :=
            updateStatusSingle mxjob rtype replicas restart schedulerCompleted now }
        rtype replicas restart schedulerCompleted now =
      updateStatusSingle mxjob rtype replicas restart schedulerCompleted now := by
  have hrs : (updateStatusSingle mxjob rtype replicas restart
      schedulerCompleted now).mxReplicaStatuses =
      mxjob.status.mxReplicaStatuses := by
    unfold updateStatusSingle
    rw [failureStep_mxReplicaStatuses, topologyStep_mxReplicaStatuses,
      setStartTime_mxReplicaStatuses]
  show failureStep mxjob.name
      (((updateStatusSingle mxjob rtype replicas restart schedulerCompleted
        now).mxReplicaStatuses rtype).failed) restart now
      (topologyStep mxjob.name mxjob.containSchedulerSpec rtype
        (replicas - ((updateStatusSingle mxjob rtype replicas restart
          schedulerCompleted now).mxReplicaStatuses rtype).succeeded)
        (((updateStatusSingle mxjob rtype replicas restart schedulerCompleted
          now).mxReplicaStatuses rtype).active)
        schedulerCompleted now
        (setStartTime (updateStatusSingle mxjob rtype replicas restart
          schedulerCompleted now) now)) =
    updateStatusSingle mxjob rtype replicas restart schedulerCompleted now
  rw [hrs]
  rw [show updateStatusSingle mxjob rtype replicas restart schedulerCompleted
      now =
    failureStep mxjob.name ((mxjob.status.mxReplicaStatuses rtype).failed)
      restart now
      (topologyStep mxjob.name mxjob.containSchedulerSpec rtype
        (replicas - (mxjob.status.mxReplicaStatuses rtype).succeeded)
        ((mxjob.status.mxReplicaStatuses rtype).active) schedulerCompleted
        now (setStartTime mxjob.status now)) from rfl]
  exact pass_idem mxjob.name mxjob.containSchedulerSpec rtype _ _ _
    schedulerCompleted restart now mxjob.status hok

/-- Scheduler-less worker job used for witnesses: three declared workers, all
succeeded. -/
def mxAllSucceeded : MXJob :=
  { name := "j"
    containSchedulerSpec := false
    status :=
      { startTime := none
        completionTime := none
        mxReplicaStatuses := Function.update emptyRS MXReplicaType.worker ⟨0, 3, 0⟩
        conditions := [] } }

/-- C2 witness: the amended idempotence applied to a concrete job. -/
theorem updateStatusSingle_idem_witness :
    updateStatusSingle
        { mxAllSucceeded with status :=
            updateStatusSingle mxAllSucceeded MXReplicaType.worker 3 false false 4 }
        MXReplicaType.worker 3 false false 4 =
      updateStatusSingle mxAllSucceeded MXReplicaType.worker 3 false false 4 :=
  updateStatusSingle_idem mxAllSucceeded MXReplicaType.worker 3 false false 4
    (by decide)

/-! ## C1: terminal lock -/

theorem pass_conditions_of_completed (n : String) (cs : Bool)
    (rtype : MXReplicaType) (e r f : Int) (sc restart : Bool) (now : Nat)
    (u : MXJobStatus) (hcomp : completed u = true) :
    (failureStep n f restart now
      (topologyStep n cs rtype e r sc now u)).conditions = u.conditions := by
  have hcondT : (topologyStep n cs rtype e r sc now u).conditions =
      u.conditions := by
    rcases topologyStep_of_completed n cs rtype e r sc now u hcomp with h | h
    · rw [h]
    · rw [h, setCompletionTimeIfNil_conditions]
  have hcompT : completed (topologyStep n cs rtype e r sc now u) = true := by
    rw [completed_only_conditions _ u hcondT]
    exact hcomp
  rcases failureStep_of_completed n f restart now _ hcompT with h2 | h2
  · rw [h2]
    exact hcondT
  · rw [h2, setCompletionTimeIfNil_conditions]
    exact hcondT

/-- Scheduler-topology job that is already Failed (status True) but whose
completionTime was never recorded; one succeeded scheduler pod out of one
replica. -/
def mxTerminalNoComp : MXJob :=
  { name := "j"
    containSchedulerSpec := true
    status :=
      { startTime := some 0
        completionTime := none
        mxReplicaStatuses := Function.update emptyRS MXReplicaType.scheduler ⟨0, 1, 0⟩
        conditions :=
          [{ ctype := MXJobConditionType.failed
             status := ConditionStatus.conditionTrue
             lastUpdateTime := 0
             lastTransitionTime := 0
             reason := mxJobFailedReason
             message := "m" }] } }

/-- C1 counterexample: on a status that already holds a Failed condition with
status True but no completionTime, a call whose success branch fires sets
completionTime (even though the conditions list stays frozen), so the call is
not a no-op on completionTime. -/
theorem terminal_lock_counterexample :
    completed mxTerminalNoComp.status = true ∧
    mxTerminalNoComp.status.completionTime = none ∧
    (updateStatusSingle mxTerminalNoComp MXReplicaType.scheduler 1 false
      false 5).completionTime = some 5 ∧
    (updateStatusSingle mxTerminalNoComp MXReplicaType.scheduler 1 false
      false 5).conditions = mxTerminalNoComp.status.conditions := by
  decide

/-- C1 amended: once a Succeeded or Failed condition with status True exists,
every call leaves the conditions list unchanged, and leaves completionTime
unchanged provided completionTime is already set (as it is in any status the
state machine itself completed); a terminal status whose completionTime is
still nil can have it filled in by a branch that signals completion. -/
theorem terminal_lock_amended (mxjob : MXJob) (rtype : MXReplicaType)
    (replicas : Int) (restart schedulerCompleted : Bool) (now : Nat)
    (hterm : completed mxjob.status = true) :
    (updateStatusSingle mxjob rtype replicas restart schedulerCompleted
      now).conditions = mxjob.status.conditions ∧
    (mxjob.status.completionTime ≠ none →
      (updateStatusSingle mxjob rtype replicas restart schedulerCompleted
        now).completionTime = mxjob.status.completionTime) := by
  have hcompu : completed (setStartTime mxjob.status now) = true := by
    rw [completed_setStartTime]
    exact hterm
  have hunf : updateStatusSingle mxjob rtype replicas restart
      schedulerCompleted now =
    failureStep mxjob.name ((mxjob.status.mxReplicaStatuses rtype).failed)
      restart now
      (topologyStep mxjob.name mxjob.containSchedulerSpec rtype
        (replicas - (mxjob.status.mxReplicaStatuses rtype).succeeded)
        ((mxjob.status.mxReplicaStatuses rtype).active) schedulerCompleted
        now (setStartTime mxjob.status now)) := rfl
  constructor
  · rw [hunf, pass_conditions_of_completed _ _ _ _ _ _ _ _ _ _ hcompu,
      setStartTime_conditions]
  · intro hcpt
    rw [hunf, pass_of_completed _ _ _ _ _ _ _ _ _ _ hcompu
      (by rw [setStartTime_completionTime]; exact hcpt),
      setStartTime_completionTime]

/-- Worker job already Succeeded with completionTime recorded; one failed pod
observed. -/
def mxTerminalDone : MXJob :=
  { name := "j"
    containSchedulerSpec := false
    status :=
      { startTime := some 0
        completionTime := some 2
        mxReplicaStatuses := Function.update emptyRS MXReplicaType.worker ⟨1, 0, 1⟩
        conditions :=
          [{ ctype := MXJobConditionType.succeeded
             status := ConditionStatus.conditionTrue
             lastUpdateTime := 1
             lastTransitionTime := 1
             reason := mxJobSucceededReason
             message := "m" }] } }

/-- C1 witness: the amended terminal lock at a concrete completed job. -/
theorem terminal_lock_witness :
    (updateStatusSingle mxTerminalDone MXReplicaType.worker 2 true false
      9).conditions = mxTerminalDone.status.conditions ∧
    (updateStatusSingle mxTerminalDone MXReplicaType.worker 2 true false
      9).completionTime = mxTerminalDone.status.completionTime :=
  ⟨(terminal_lock_amended mxTerminalDone MXReplicaType.worker 2 true false 9
      (by decide)).1,
   (terminal_lock_amended mxTerminalDone MXReplicaType.worker 2 true false 9
      (by decide)).2 (by decide)⟩

/-! ## C3: mutual exclusion of Running and Restarting -/

theorem setCondition_append_shape (s : MXJobStatus) (c : MXJobCondition)
    (hterm : (isFailed s || isSucceeded s) = false)
    (hnoop : ∀ cc, s.conditions.getLast? = some cc →
      ¬(cc.status = c.status ∧ cc.reason = c.reason)) :
    ∃ c2, c2.ctype = c.ctype ∧ c2.status = c.status ∧ c2.reason = c.reason ∧
      (setCondition s c).conditions =
        filterOutCondition s.conditions c.ctype ++ [c2] := by
  rcases hg : s.conditions.getLast? with _ | cc
  · exact ⟨c, rfl, rfl, rfl, by rw [setCondition_of_getLast_none s c hterm hg]⟩
  · by_cases hst : cc.status = c.status
    · refine ⟨{ c with lastTransitionTime := cc.lastTransitionTime }, rfl, rfl,
        rfl, ?_⟩
      rw [setCondition_proceed_same_status s c cc hterm hg hst
        (fun hr => hnoop cc hg ⟨hst, hr⟩)]
    · exact ⟨c, rfl, rfl, rfl,
        by rw [setCondition_proceed_diff_status s c cc hterm hg hst]⟩

theorem mem_filterOutCondition_restarting (l : List MXJobCondition)
    (d : MXJobCondition)
    (hd : d ∈ filterOutCondition l MXJobConditionType.restarting) :
    d.ctype ≠ MXJobConditionType.running ∧
      d.ctype ≠ MXJobConditionType.restarting := by
  rw [← filterOutCondition_running_eq_restarting] at hd
  exact mem_filterOutCondition_running l d hd

/-- C3: mutual exclusion.  Whenever setCondition actually inserts (the
status is not terminal and the insertion is not the same-status same-reason
no-op), inserting a Restarting condition leaves no Running condition in the
list and inserting a Running one leaves no Restarting condition; the
conflicting entries are absent from the result entirely. -/
theorem mutual_exclusion_running_restarting (s : MXJobStatus)
    (c : MXJobCondition) (hterm : (isFailed s || isSucceeded s) = false)
    (hnoop : ∀ cc, s.conditions.getLast? = some cc →
      ¬(cc.status = c.status ∧ cc.reason = c.reason)) :
    (c.ctype = MXJobConditionType.restarting →
      ∀ d ∈ (setCondition s c).conditions,
        d.ctype ≠ MXJobConditionType.running) ∧
    (c.ctype = MXJobConditionType.running →
      ∀ d ∈ (setCondition s c).conditions,
        d.ctype ≠ MXJobConditionType.restarting) := by
  rcases setCondition_append_shape s c hterm hnoop with ⟨c2, hcty, _, _, hconds⟩
  constructor
  · intro hc d hd
    rw [hconds, hc] at hd
    rcases List.mem_append.mp hd with hm | hm
    · exact (mem_filterOutCondition_restarting _ d hm).1
    · rw [List.mem_singleton.mp hm, hcty, hc]
      simp
  · intro hc d hd
    rw [hconds, hc] at hd
    rcases List.mem_append.mp hd with hm | hm
    · rw [filterOutCondition_running_eq_restarting] at hm
      exact (mem_filterOutCondition_restarting _ d hm).2
    · rw [List.mem_singleton.mp hm, hcty, hc]
      simp

/-- Status holding a single live Running condition. -/
def sRunningOnly : MXJobStatus :=
  { startTime := some 0
    completionTime := none
    mxReplicaStatuses := emptyRS
    conditions :=
      [{ ctype := MXJobConditionType.running
         status := ConditionStatus.conditionTrue
         lastUpdateTime := 0
         lastTransitionTime := 0
         reason := mxJobRunningReason
         message := "m" }] }

/-- C3 witness: inserting Restarting into a history holding a live Running
condition leaves no Running entry. -/
theorem mutual_exclusion_running_restarting_witness :
    ((setCondition sRunningOnly
        (newCondition MXJobConditionType.restarting mxJobRestartingReason
          "m2" 7)).conditions.all
      fun d => decide (d.ctype ≠ MXJobConditionType.running)) = true :=
  List.all_eq_true.mpr fun d hd =>
    decide_eq_true
      ((mutual_exclusion_running_restarting sRunningOnly
          (newCondition MXJobConditionType.restarting mxJobRestartingReason
            "m2" 7)
          (by decide)
          (fun cc hcc => by
            rw [show sRunningOnly.conditions.getLast? = some
              { ctype := MXJobConditionType.running
                status := ConditionStatus.conditionTrue
                lastUpdateTime := 0
                lastTransitionTime := 0
                reason := mxJobRunningReason
                message := "m" } from rfl] at hcc
            injection hcc with h
            subst h
            decide)).1 rfl d hd)

/-! ## C4: timestamps are set at most once -/

theorem setStartTime_startTime (s : MXJobStatus) (now : Nat) :
    (setStartTime s now).startTime =
      if s.startTime = none then some now else s.startTime := by
  unfold setStartTime
  split <;> simp_all

theorem setCompletionTimeIfNil_completionTime (s : MXJobStatus) (now : Nat) :
    (setCompletionTimeIfNil s now).completionTime =
      if s.completionTime = none then some now else s.completionTime := by
  unfold setCompletionTimeIfNil
  split <;> simp_all

theorem topologyStep_completionTime_of_isSome (n : String) (cs : Bool)
    (rtype : MXReplicaType) (e r : Int) (sc : Bool) (now : Nat)
    (s : MXJobStatus) (h : s.completionTime ≠ none) :
    (topologyStep n cs rtype e r sc now s).completionTime =
      s.completionTime := by
  unfold topologyStep updateMXJobConditions
  split_ifs <;>
    simp [setCondition_completionTime, setCompletionTimeIfNil_completionTime,
      apply_ite MXJobStatus.completionTime, h]

theorem failureStep_completionTime_of_isSome (n : String) (f : Int)
    (re : Bool) (now : Nat) (s : MXJobStatus)
    (h : s.completionTime ≠ none) :
    (failureStep n f re now s).completionTime = s.completionTime := by
  unfold failureStep updateMXJobConditions
  split_ifs <;>
    simp [setCondition_completionTime, setCompletionTimeIfNil_completionTime, h]

theorem pass_completionTime_cases (n : String) (cs : Bool)
    (rtype : MXReplicaType) (e r f : Int) (sc restart : Bool) (now : Nat)
    (u : MXJobStatus) :
    (failureStep n f restart now
      (topologyStep n cs rtype e r sc now u)).completionTime =
      u.completionTime ∨
    (u.completionTime = none ∧
      (failureStep n f restart now
        (topologyStep n cs rtype e r sc now u)).completionTime = some now ∧
      ((cs = true ∧ rtype = MXReplicaType.scheduler ∧ e = 0) ∨
       (cs = false ∧ (rtype = MXReplicaType.worker ∨
         rtype = MXReplicaType.tuner) ∧ (e = 0 ∨ sc = true)) ∨
       (f > 0 ∧ restart = false))) := by
  by_cases hcpt : u.completionTime = none
  · by_cases hT0 : (topologyStep n cs rtype e r sc now u).completionTime =
        u.completionTime
    · -- topology branch did not set it
      by_cases hf : f > 0
      · cases restart with
        | true =>
          left
          rw [failureStep_pos_restart n f now _ hf,
            updateMXJobConditions_completionTime]
          exact hT0
        | false =>
          right
          refine ⟨hcpt, ?_, Or.inr (Or.inr ⟨hf, rfl⟩)⟩
          rw [failureStep_pos_norestart n f now _ hf,
            updateMXJobConditions_completionTime,
            setCompletionTimeIfNil_completionTime, hT0, if_pos hcpt]
      · left
        rw [failureStep_nonpos n f restart now _ hf]
        exact hT0
    · -- topology branch set it: that only happens in a success branch
      have hbranch : (cs = true ∧ rtype = MXReplicaType.scheduler ∧ e = 0) ∨
          (cs = false ∧ (rtype = MXReplicaType.worker ∨
            rtype = MXReplicaType.tuner) ∧ (e = 0 ∨ sc = true)) := by
        cases cs with
        | false =>
          by_cases hrt : rtype = MXReplicaType.worker ∨
              rtype = MXReplicaType.tuner
          · by_cases hsucc : e = 0 ∨ sc = true
            · exact Or.inr ⟨rfl, hrt, hsucc⟩
            · exfalso
              apply hT0
              rw [topologyStep_nosched_nosucc n rtype e r sc now u hrt hsucc]
              split
              · rw [updateMXJobConditions_completionTime]
              · rfl
          · exact absurd (by
              rw [topologyStep_nosched_other n rtype e r sc now u hrt]) hT0
        | true =>
          by_cases hrt : rtype = MXReplicaType.scheduler
          · by_cases he : e = 0
            · exact Or.inl ⟨rfl, hrt, he⟩
            · exfalso
              apply hT0
              rw [topologyStep_sched_nosucc n rtype e r sc now u hrt he]
              split
              · rw [updateMXJobConditions_completionTime]
              · rfl
          · exact absurd (by
              rw [topologyStep_sched_other n rtype e r sc now u hrt]) hT0
      have hTset : (topologyStep n cs rtype e r sc now u).completionTime =
          some now := by
        rcases hbranch with ⟨hcs, hrt, he⟩ | ⟨hcs, hrt, hsucc⟩
        · subst hcs
          rw [topologyStep_sched_succ n rtype e r sc now u hrt he,
            updateMXJobConditions_completionTime,
            setCompletionTimeIfNil_completionTime,
            apply_ite MXJobStatus.completionTime]
          simp [setCondition_completionTime, updateMXJobConditions, hcpt]
        · subst hcs
          rw [topologyStep_nosched_succ n rtype e r sc now u hrt hsucc,
            updateMXJobConditions_completionTime,
            setCompletionTimeIfNil_completionTime, hcpt]
          simp
      right
      refine ⟨hcpt, ?_, Or.imp_right Or.inl hbranch⟩
      rw [failureStep_completionTime_of_isSome n f restart now _
        (by rw [hTset]; simp)]
      exact hTset
  · left
    rw [failureStep_completionTime_of_isSome n f restart now _
      (by rw [topologyStep_completionTime_of_isSome n cs rtype e r sc now u hcpt]; exact hcpt)]
    exact topologyStep_completionTime_of_isSome n cs rtype e r sc now u hcpt

/-- C4: timestamps are set at most once.  startTime is assigned exactly when
it was nil (and then to the current instant); a non-nil completionTime is
never changed; and when completionTime does change, it was nil, is set to
the current instant, and the call ran a branch that applies Succeeded
(scheduler success or scheduler-less success) or Failed (failed pods without
restart). -/
theorem timestamps_set_at_most_once (mxjob : MXJob) (rtype : MXReplicaType)
    (replicas : Int) (restart schedulerCompleted : Bool) (now : Nat) :
    ((updateStatusSingle mxjob rtype replicas restart schedulerCompleted
      now).startTime =
      if mxjob.status.startTime = none then some now
      else mxjob.status.startTime) ∧
    (mxjob.status.completionTime ≠ none →
      (updateStatusSingle mxjob rtype replicas restart schedulerCompleted
        now).completionTime = mxjob.status.completionTime) ∧
    ((updateStatusSingle mxjob rtype replicas restart schedulerCompleted
      now).completionTime ≠ mxjob.status.completionTime →
      mxjob.status.completionTime = none ∧
      (updateStatusSingle mxjob rtype replicas restart schedulerCompleted
        now).completionTime = some now ∧
      ((mxjob.containSchedulerSpec = true ∧ rtype = MXReplicaType.scheduler ∧
        replicas - (mxjob.status.mxReplicaStatuses rtype).succeeded = 0) ∨
       (mxjob.containSchedulerSpec = false ∧
        (rtype = MXReplicaType.worker ∨ rtype = MXReplicaType.tuner) ∧
        (replicas - (mxjob.status.mxReplicaStatuses rtype).succeeded = 0 ∨
          schedulerCompleted = true)) ∨
       ((mxjob.status.mxReplicaStatuses rtype).failed > 0 ∧
        restart = false))) := by
  have hunf : updateStatusSingle mxjob rtype replicas restart
      schedulerCompleted now =
    failureStep mxjob.name ((mxjob.status.mxReplicaStatuses rtype).failed)
      restart now
      (topologyStep mxjob.name mxjob.containSchedulerSpec rtype
        (replicas - (mxjob.status.mxReplicaStatuses rtype).succeeded)
        ((mxjob.status.mxReplicaStatuses rtype).active) schedulerCompleted
        now (setStartTime mxjob.status now)) := rfl
  refine ⟨?_, ?_, ?_⟩
  · rw [hunf, failureStep_startTime, topologyStep_startTime,
      setStartTime_startTime]
  · intro hcpt
    rw [hunf, failureStep_completionTime_of_isSome _ _ _ _ _
      (by rw [topologyStep_completionTime_of_isSome _ _ _ _ _ _ _ _
          (by rw [setStartTime_completionTime]; exact hcpt),
        setStartTime_completionTime]; exact hcpt),
      topologyStep_completionTime_of_isSome _ _ _ _ _ _ _ _
        (by rw [setStartTime_completionTime]; exact hcpt),
      setStartTime_completionTime]
  · intro hne
    rw [hunf] at hne ⊢
    rcases pass_completionTime_cases mxjob.name mxjob.containSchedulerSpec
      rtype (replicas - (mxjob.status.mxReplicaStatuses rtype).succeeded)
      ((mxjob.status.mxReplicaStatuses rtype).active)
      ((mxjob.status.mxReplicaStatuses rtype).failed) schedulerCompleted
      restart now (setStartTime mxjob.status now) with h | ⟨h1, h2, h3⟩
    · exfalso
      apply hne
      rw [h, setStartTime_completionTime]
    · rw [setStartTime_completionTime] at h1
      exact ⟨h1, h2, h3⟩

/-- C4 witness: the timestamp facts applied to a concrete fresh worker job
with all pods succeeded. -/
theorem timestamps_set_at_most_once_witness :
    (updateStatusSingle mxAllSucceeded MXReplicaType.worker 3 false false
      4).startTime = some 4 ∧
    (updateStatusSingle mxAllSucceeded MXReplicaType.worker 3 false false
      4).completionTime = some 4 ∧
    mxAllSucceeded.status.completionTime = none := by
  have h := timestamps_set_at_most_once mxAllSucceeded MXReplicaType.worker 3
    false false 4
  refine ⟨?_, ?_, rfl⟩
  · rw [h.1]
    decide
  · exact (h.2.2 (by decide)).2.1

/-! ## C5: scheduler-less completion -/

/-- C5: in a job without a scheduler role, for a Worker or Tuner group the
topology branch applies Succeeded and sets completionTime (if unset) exactly
when expected = 0 or the scheduler-completed flag is set, and otherwise
applies Running when the active count is positive; concretely, a fresh
worker job with groupSize = 3, succeeded = 3, active = 0, failed = 0 ends
with conditions `[Succeeded]` and completionTime set. -/
theorem schedulerless_completion :
    (∀ (n : String) (rtype : MXReplicaType) (e r : Int) (sc : Bool)
        (now : Nat) (s : MXJobStatus),
      (rtype = MXReplicaType.worker ∨ rtype = MXReplicaType.tuner) →
      (e = 0 ∨ sc = true) →
      topologyStep n false rtype e r sc now s =
        updateMXJobConditions (setCompletionTimeIfNil s now)
          MXJobConditionType.succeeded mxJobSucceededReason (succeededMsg n)
          now) ∧
    (∀ (n : String) (rtype : MXReplicaType) (e r : Int) (sc : Bool)
        (now : Nat) (s : MXJobStatus),
      (rtype = MXReplicaType.worker ∨ rtype = MXReplicaType.tuner) →
      ¬(e = 0 ∨ sc = true) → r > 0 →
      topologyStep n false rtype e r sc now s =
        updateMXJobConditions s MXJobConditionType.running mxJobRunningReason
          (runningMsg n) now) ∧
    ((updateStatusSingle mxAllSucceeded MXReplicaType.worker 3 false false
      4).conditions =
      [{ ctype := MXJobConditionType.succeeded
         status := ConditionStatus.conditionTrue
         lastUpdateTime := 4
         lastTransitionTime := 4
         reason := mxJobSucceededReason
         message := succeededMsg "j" }] ∧
     (updateStatusSingle mxAllSucceeded MXReplicaType.worker 3 false false
       4).completionTime = some 4) := by
  refine ⟨?_, ?_, by decide⟩
  · intro n rtype e r sc now s hrt hsucc
    exact topologyStep_nosched_succ n rtype e r sc now s hrt hsucc
  · intro n rtype e r sc now s hrt hsucc hr
    rw [topologyStep_nosched_nosucc n rtype e r sc now s hrt hsucc, if_pos hr]

/-- C5 witness: the success equation of the scheduler-less branch applied at
a concrete tuner group with a completed scheduler flag. -/
theorem schedulerless_completion_witness :
    topologyStep "j" false MXReplicaType.tuner 2 0 true 3 sRunningOnly =
      updateMXJobConditions (setCompletionTimeIfNil sRunningOnly 3)
        MXJobConditionType.succeeded mxJobSucceededReason (succeededMsg "j")
        3 :=
  schedulerless_completion.1 "j" MXReplicaType.tuner 2 0 true 3 sRunningOnly
    (Or.inr rfl) (Or.inr rfl)

/-! ## C6: failure-branch override -/

/-- Scheduler-less worker job with one succeeded and one failed pod out of
one declared replica. -/
def mxSucceededAndFailed : MXJob :=
  { name := "j"
    containSchedulerSpec := false
    status :=
      { startTime := none
        completionTime := none
        mxReplicaStatuses := Function.update emptyRS MXReplicaType.worker ⟨0, 1, 1⟩
        conditions := [] } }

/-- C6 counterexample: with succeeded = replicas and failed = 1 and
restart = false, the topology branch applies Succeeded first, the status
becomes terminal, and the failure branch does NOT override it with Failed —
the final conditions are exactly `[Succeeded]`. -/
theorem failure_branch_override_counterexample :
    (mxSucceededAndFailed.status.mxReplicaStatuses MXReplicaType.worker).failed
      > 0 ∧
    (updateStatusSingle mxSucceededAndFailed MXReplicaType.worker 1 false
      false 3).conditions =
      [{ ctype := MXJobConditionType.succeeded
         status := ConditionStatus.conditionTrue
         lastUpdateTime := 3
         lastTransitionTime := 3
         reason := mxJobSucceededReason
         message := succeededMsg "j" }] ∧
    isFailed (updateStatusSingle mxSucceededAndFailed MXReplicaType.worker 1
      false false 3) = false := by
  decide

/-- C6 amended: the failure branch runs after the topology branch; with
restart=true it applies Restarting and never touches completionTime, with
restart=false it sets completionTime (if unset) and applies Failed; it
overrides a Running condition applied earlier in the same call (no Running
entry survives), but a Succeeded condition applied earlier makes the status
terminal, so the failure insert is then a no-op and Succeeded is not
overridden. -/
theorem failure_branch_override :
    (∀ (mxjob : MXJob) (rtype : MXReplicaType) (replicas : Int)
        (restart schedulerCompleted : Bool) (now : Nat),
      updateStatusSingle mxjob rtype replicas restart schedulerCompleted now =
        failureStep mxjob.name
          ((mxjob.status.mxReplicaStatuses rtype).failed) restart now
          (topologyStep mxjob.name mxjob.containSchedulerSpec rtype
            (replicas - (mxjob.status.mxReplicaStatuses rtype).succeeded)
            ((mxjob.status.mxReplicaStatuses rtype).active)
            schedulerCompleted now (setStartTime mxjob.status now))) ∧
    (∀ (n : String) (f : Int) (now : Nat) (s : MXJobStatus), f > 0 →
      (failureStep n f true now s).completionTime = s.completionTime) ∧
    (∀ (n : String) (f : Int) (now : Nat) (s : MXJobStatus), f > 0 →
      (isFailed s || isSucceeded s) = false →
      hasCondition
        (failureStep n f true now
          (updateMXJobConditions s MXJobConditionType.running
            mxJobRunningReason (runningMsg n) now))
        MXJobConditionType.restarting = true ∧
      (∀ d ∈ (failureStep n f true now
          (updateMXJobConditions s MXJobConditionType.running
            mxJobRunningReason (runningMsg n) now)).conditions,
        d.ctype ≠ MXJobConditionType.running)) ∧
    (∀ (n : String) (f : Int) (now : Nat) (s : MXJobStatus), f > 0 →
      ((failureStep n f false now s).completionTime =
        if s.completionTime = none then some now else s.completionTime) ∧
      ((isFailed s || isSucceeded s) = false → reasonsOK s.conditions →
        isFailed (failureStep n f false now s) = true)) ∧
    (∀ (n : String) (f : Int) (re : Bool) (now : Nat) (s : MXJobStatus),
      isSucceeded s = true →
      (failureStep n f re now s).conditions = s.conditions) := by
  refine ⟨fun _ _ _ _ _ _ => rfl, ?_, ?_, ?_, ?_⟩
  · intro n f now s hf
    rw [failureStep_pos_restart n f now _ hf,
      updateMXJobConditions_completionTime]
  · intro n f now s hf hterm
    rw [failureStep_pos_restart n f now _ hf]
    unfold updateMXJobConditions
    rw [setCondition_r_rst_shape s (runningMsg n) (restartingMsg n) now hterm]
    constructor
    · unfold hasCondition
      dsimp only
      rw [List.any_append]
      simp [restartingCondAt]
    · intro d hd
      dsimp only at hd
      rcases List.mem_append.mp hd with hm | hm
      · exact (mem_filterOutCondition_restarting _ d hm).1
      · rw [List.mem_singleton.mp hm]
        simp [restartingCondAt]
  · intro n f now s hf
    constructor
    · rw [failureStep_pos_norestart n f now _ hf,
        updateMXJobConditions_completionTime,
        setCompletionTimeIfNil_completionTime]
    · intro hterm hok
      rw [failureStep_pos_norestart n f now _ hf]
      unfold updateMXJobConditions
      have hterm2 : (isFailed (setCompletionTimeIfNil s now) ||
          isSucceeded (setCompletionTimeIfNil s now)) = false := by
        have h2 := completed_setCompletionTimeIfNil s now
        unfold completed at h2
        rw [h2]
        exact hterm
      have hoknow : reasonsOK (setCompletionTimeIfNil s now).conditions := by
        rw [setCompletionTimeIfNil_conditions]
        exact hok
      have hnoop : ∀ cc,
          (setCompletionTimeIfNil s now).conditions.getLast? = some cc →
          ¬(cc.status = (newCondition MXJobConditionType.failed
              mxJobFailedReason (failedMsg n) now).status ∧
            cc.reason = (newCondition MXJobConditionType.failed
              mxJobFailedReason (failedMsg n) now).reason) := by
        intro cc hcc hcontra
        have hmem : cc ∈ (setCompletionTimeIfNil s now).conditions :=
          List.mem_of_mem_getLast? hcc
        have hcan := hoknow cc hmem hcontra.1
        have hcty : cc.ctype = MXJobConditionType.failed :=
          hcan.2.2.2 hcontra.2
        have hisf : isFailed (setCompletionTimeIfNil s now) = true := by
          unfold isFailed hasCondition
          exact List.any_eq_true.mpr
            ⟨cc, hmem, by simp [hcty, hcontra.1, newCondition]⟩
        rw [hisf] at hterm2
        simp at hterm2
      rcases setCondition_append_shape _ _ hterm2 hnoop with
        ⟨c2, hc2t, hc2s, _, hconds⟩
      unfold isFailed hasCondition
      rw [hconds, List.any_append]
      have hone : (List.any [c2] fun c =>
          decide (c.ctype = MXJobConditionType.failed ∧
            c.status = ConditionStatus.conditionTrue)) = true := by
        simp [hc2t, hc2s, newCondition]
      rw [hone]
      simp
  · intro n f re now s hsucc
    have hcomp : completed s = true := by
      unfold completed
      rw [hsucc]
      simp
    rcases failureStep_of_completed n f re now s hcomp with h | h
    · rw [h]
    · rw [h, setCompletionTimeIfNil_conditions]

/-- C6 witness: the restart branch at a concrete status holding a live
Running condition: completionTime untouched and Restarting present. -/
theorem failure_branch_override_witness :
    (failureStep "j" 1 true 5 sRunningOnly).completionTime =
      sRunningOnly.completionTime ∧
    hasCondition
      (failureStep "j" 1 true 5
        (updateMXJobConditions sRunningOnly MXJobConditionType.running
          mxJobRunningReason (runningMsg "j") 5))
      MXJobConditionType.restarting = true :=
  ⟨failure_branch_override.2.1 "j" 1 5 sRunningOnly (by decide),
   (failure_branch_override.2.2.1 "j" 1 5 sRunningOnly (by decide)
     (by decide)).1⟩

/-! ## C7: transition-time semantics and the getCondition defect -/

/-- Modelled from the spec: the intended semantics of `getCondition`, per its
own doc comment ("returns the condition with the provided type") and the
spec note — look up the most recent condition of the matching type.  The
source implementation ignores `condType` and returns the last element of the
history. -/
def getConditionSpec (status : MXJobStatus) (condType : MXJobConditionType) :
    Option MXJobCondition :=
  (status.conditions.filter fun c => decide (c.ctype = condType)).getLast?

/-- Status holding a live Running condition followed by a live Created
condition. -/
def sRunningThenCreated : MXJobStatus :=
  { startTime := some 0
    completionTime := none
    mxReplicaStatuses := emptyRS
    conditions :=
      [{ ctype := MXJobConditionType.running
         status := ConditionStatus.conditionTrue
         lastUpdateTime := 0
         lastTransitionTime := 0
         reason := mxJobRunningReason
         message := "m" },
       { ctype := MXJobConditionType.created
         status := ConditionStatus.conditionTrue
         lastUpdateTime := 1
         lastTransitionTime := 1
         reason := mxJobCreatedReason
         message := "m" }] }

/-- C7: the code contradicts the claimed (and documented) semantics.
Asking `getCondition` for the Succeeded condition of a history holding only
a Running condition returns that Running condition, while the
type-respecting lookup returns none; consequently a freshly inserted
Succeeded condition inherits lastTransitionTime 0 from the Running
condition of a different type (instead of keeping its own fresh time 9,
since no previous Succeeded condition exists), and inserting Running into a
history whose live same-type same-reason Running condition is not last is
not a no-op (the history changes), contrary to the claimed "exactly when"
characterisation. -/
theorem getCondition_ignores_type_bug :
    getCondition sRunningOnly MXJobConditionType.succeeded =
      some { ctype := MXJobConditionType.running
             status := ConditionStatus.conditionTrue
             lastUpdateTime := 0
             lastTransitionTime := 0
             reason := mxJobRunningReason
             message := "m" } ∧
    getConditionSpec sRunningOnly MXJobConditionType.succeeded = none ∧
    ((setCondition sRunningOnly
        (newCondition MXJobConditionType.succeeded mxJobSucceededReason
          "m2" 9)).conditions.map
      fun c => (c.ctype, c.lastTransitionTime)) =
      [(MXJobConditionType.running, 0), (MXJobConditionType.succeeded, 0)] ∧
    (setCondition sRunningThenCreated
        (newCondition MXJobConditionType.running mxJobRunningReason
          "m3" 9)).conditions ≠ sRunningThenCreated.conditions := by
  decide

/-! ## C8: unmatched replica-type/topology combinations -/

/-- Scheduler-topology job observed with a Worker group holding one failed
pod. -/
def mxSchedWorkerFailed : MXJob :=
  { name := "w"
    containSchedulerSpec := true
    status :=
      { startTime := none
        completionTime := none
        mxReplicaStatuses := Function.update emptyRS MXReplicaType.worker ⟨0, 0, 1⟩
        conditions := [] } }

/-- C8 counterexample: a Worker call on a scheduler-topology job is not
matched by the topology branch, yet with failed = 1 and restart = false the
failure branch still appends Failed and sets completionTime, so the call is
not a no-op on the conditions list or completionTime. -/
theorem invalid_combination_counterexample :
    mxSchedWorkerFailed.containSchedulerSpec = true ∧
    mxSchedWorkerFailed.status.conditions = [] ∧
    mxSchedWorkerFailed.status.completionTime = none ∧
    (updateStatusSingle mxSchedWorkerFailed MXReplicaType.worker 2 false
      false 6).conditions ≠ [] ∧
    (updateStatusSingle mxSchedWorkerFailed MXReplicaType.worker 2 false
      false 6).completionTime = some 6 := by
  decide

/-- C8 amended: for a replica type/topology combination not matched by the
topology branch, that branch derives no condition; when additionally the
failed count of the group is not positive, the whole call leaves the
conditions list and completionTime unchanged (it may still set startTime).
The failure branch, however, runs regardless of the topology match, so a
positive failed count still derives a condition.  The embedded call is
total: the source returns a non-nil error only from the external KeyFunc
lookup. -/
theorem invalid_combination_noop (mxjob : MXJob) (rtype : MXReplicaType)
    (replicas : Int) (restart schedulerCompleted : Bool) (now : Nat)
    (hmis : (mxjob.containSchedulerSpec = true ∧
        rtype ≠ MXReplicaType.scheduler) ∨
      (mxjob.containSchedulerSpec = false ∧
        ¬(rtype = MXReplicaType.worker ∨ rtype = MXReplicaType.tuner)))
    (hf : ¬((mxjob.status.mxReplicaStatuses rtype).failed > 0)) :
    (updateStatusSingle mxjob rtype replicas restart schedulerCompleted
      now).conditions = mxjob.status.conditions ∧
    (updateStatusSingle mxjob rtype replicas restart schedulerCompleted
      now).completionTime = mxjob.status.completionTime := by
  have hunf : updateStatusSingle mxjob rtype replicas restart
      schedulerCompleted now =
    failureStep mxjob.name ((mxjob.status.mxReplicaStatuses rtype).failed)
      restart now
      (topologyStep mxjob.name mxjob.containSchedulerSpec rtype
        (replicas - (mxjob.status.mxReplicaStatuses rtype).succeeded)
        ((mxjob.status.mxReplicaStatuses rtype).active) schedulerCompleted
        now (setStartTime mxjob.status now)) := rfl
  have hT : topologyStep mxjob.name mxjob.containSchedulerSpec rtype
      (replicas - (mxjob.status.mxReplicaStatuses rtype).succeeded)
      ((mxjob.status.mxReplicaStatuses rtype).active) schedulerCompleted
      now (setStartTime mxjob.status now) = setStartTime mxjob.status now := by
    rcases hmis with ⟨hcs, hrt⟩ | ⟨hcs, hrt⟩ <;> rw [hcs]
    · exact topologyStep_sched_other _ _ _ _ _ _ _ hrt
    · exact topologyStep_nosched_other _ _ _ _ _ _ _ hrt
  rw [hunf, failureStep_nonpos _ _ _ _ _ hf, hT]
  exact ⟨setStartTime_conditions _ _, setStartTime_completionTime _ _⟩

/-- Scheduler-topology job observed through its Server group with no pods in
any terminal phase. -/
def mxSchedServer : MXJob :=
  { name := "w"
    containSchedulerSpec := true
    status :=
      { startTime := none
        completionTime := none
        mxReplicaStatuses := emptyRS
        conditions := [] } }

/-- C8 witness: a Server call against the scheduler topology with no failed
pods leaves conditions and completionTime unchanged. -/
theorem invalid_combination_noop_witness :
    (updateStatusSingle mxSchedServer MXReplicaType.server 2 false false
      6).conditions = mxSchedServer.status.conditions ∧
    (updateStatusSingle mxSchedServer MXReplicaType.server 2 false false
      6).completionTime = mxSchedServer.status.completionTime :=
  invalid_combination_noop mxSchedServer MXReplicaType.server 2 false false 6
    (Or.inl ⟨rfl, by decide⟩) (by decide)

/-! ## C9: the replica status aggregator -/

/-- C9: updateMXJobReplicaStatuses increments exactly the counter matching
the observed pod phase of the given replica type, leaves the other counters
of that type unchanged, never touches other replica types, and ignores
phases other than Running / Succeeded / Failed. -/
theorem observe_increments (m : MXReplicaType → MXReplicaStatus)
    (rtype : MXReplicaType) :
    ((updateMXJobReplicaStatuses m rtype PodPhase.running rtype).active =
        (m rtype).active + 1 ∧
      (updateMXJobReplicaStatuses m rtype PodPhase.running rtype).succeeded =
        (m rtype).succeeded ∧
      (updateMXJobReplicaStatuses m rtype PodPhase.running rtype).failed =
        (m rtype).failed ∧
      ∀ t, t ≠ rtype →
        updateMXJobReplicaStatuses m rtype PodPhase.running t = m t) ∧
    ((updateMXJobReplicaStatuses m rtype PodPhase.succeeded rtype).succeeded =
        (m rtype).succeeded + 1 ∧
      (updateMXJobReplicaStatuses m rtype PodPhase.succeeded rtype).active =
        (m rtype).active ∧
      (updateMXJobReplicaStatuses m rtype PodPhase.succeeded rtype).failed =
        (m rtype).failed ∧
      ∀ t, t ≠ rtype →
        updateMXJobReplicaStatuses m rtype PodPhase.succeeded t = m t) ∧
    ((updateMXJobReplicaStatuses m rtype PodPhase.failed rtype).failed =
        (m rtype).failed + 1 ∧
      (updateMXJobReplicaStatuses m rtype PodPhase.failed rtype).active =
        (m rtype).active ∧
      (updateMXJobReplicaStatuses m rtype PodPhase.failed rtype).succeeded =
        (m rtype).succeeded ∧
      ∀ t, t ≠ rtype →
        updateMXJobReplicaStatuses m rtype PodPhase.failed t = m t) ∧
    updateMXJobReplicaStatuses m rtype PodPhase.pending = m ∧
    updateMXJobReplicaStatuses m rtype PodPhase.unknown = m := by
  refine ⟨⟨?_, ?_, ?_, ?_⟩, ⟨?_, ?_, ?_, ?_⟩, ⟨?_, ?_, ?_, ?_⟩, rfl, rfl⟩ <;>
    first
    | (intro t ht
       simp [updateMXJobReplicaStatuses, Function.update_noteq ht])
    | simp [updateMXJobReplicaStatuses, Function.update_same]

/-- C9 witness: one running worker pod observed against the zero counters. -/
theorem observe_increments_witness :
    (updateMXJobReplicaStatuses emptyRS MXReplicaType.worker PodPhase.running
      MXReplicaType.worker).active =
      (emptyRS MXReplicaType.worker).active + 1 ∧
    updateMXJobReplicaStatuses emptyRS MXReplicaType.worker PodPhase.running
      MXReplicaType.scheduler = emptyRS MXReplicaType.scheduler :=
  ⟨(observe_increments emptyRS MXReplicaType.worker).1.1,
   (observe_increments emptyRS MXReplicaType.worker).1.2.2.2
     MXReplicaType.scheduler (by decide)⟩

/-! ## C10: a terminal insertion retains Restarting and Created entries -/

theorem mem_filterOutCondition_strong (l : List MXJobCondition)
    (t : MXJobConditionType) (d : MXJobCondition)
    (hd : d ∈ filterOutCondition l t) :
    d ∈ l ∨ ∃ d0 ∈ l, d0.ctype = MXJobConditionType.running ∧
      d = { d0 with status := ConditionStatus.conditionFalse } := by
  induction l with
  | nil => simp [filterOutCondition] at hd
  | cons c rest ih =>
    simp only [filterOutCondition] at hd
    split_ifs at hd with h1 h2 h3 h4
    · rcases ih hd with h | ⟨d0, hd0, hr, he⟩
      · exact Or.inl (List.mem_cons_of_mem c h)
      · exact Or.inr ⟨d0, List.mem_cons_of_mem c hd0, hr, he⟩
    · rcases ih hd with h | ⟨d0, hd0, hr, he⟩
      · exact Or.inl (List.mem_cons_of_mem c h)
      · exact Or.inr ⟨d0, List.mem_cons_of_mem c hd0, hr, he⟩
    · rcases ih hd with h | ⟨d0, hd0, hr, he⟩
      · exact Or.inl (List.mem_cons_of_mem c h)
      · exact Or.inr ⟨d0, List.mem_cons_of_mem c hd0, hr, he⟩
    · rcases List.mem_cons.mp hd with he | hm
      · exact Or.inr ⟨c, List.mem_cons_self c rest, h4.2, he⟩
      · rcases ih hm with h | ⟨d0, hd0, hr, he⟩
        · exact Or.inl (List.mem_cons_of_mem c h)
        · exact Or.inr ⟨d0, List.mem_cons_of_mem c hd0, hr, he⟩
    · rcases List.mem_cons.mp hd with he | hm
      · exact Or.inl (he ▸ List.mem_cons_self c rest)
      · rcases ih hm with h | ⟨d0, hd0, hr, he⟩
        · exact Or.inl (List.mem_cons_of_mem c h)
        · exact Or.inr ⟨d0, List.mem_cons_of_mem c hd0, hr, he⟩

theorem mem_filterOutCondition_keep (l : List MXJobCondition)
    (t : MXJobConditionType) (d : MXJobCondition)
    (ht : t = MXJobConditionType.succeeded ∨ t = MXJobConditionType.failed)
    (hd : d ∈ l)
    (hdt : d.ctype = MXJobConditionType.restarting ∨
      d.ctype = MXJobConditionType.created) :
    d ∈ filterOutCondition l t := by
  induction l with
  | nil => simp at hd
  | cons c rest ih =>
    simp only [filterOutCondition]
    split_ifs with h1 h2 h3 h4
    · exfalso
      rcases ht with h | h <;> rw [h] at h1 <;> exact absurd h1.1 (by decide)
    · exfalso
      rcases ht with h | h <;> rw [h] at h2 <;> exact absurd h2.1 (by decide)
    · rcases List.mem_cons.mp hd with he | hm
      · exfalso
        rw [he] at hdt
        rw [h3] at hdt
        rcases ht with h | h <;> rw [h] at hdt <;>
          rcases hdt with h5 | h5 <;> exact absurd h5 (by decide)
      · exact ih hm
    · rcases List.mem_cons.mp hd with he | hm
      · exfalso
        rw [he] at hdt
        rw [h4.2] at hdt
        rcases hdt with h5 | h5 <;> exact absurd h5 (by decide)
      · exact List.mem_cons_of_mem _ (ih hm)
    · rcases List.mem_cons.mp hd with he | hm
      · rw [he]
        exact List.mem_cons_self c _
      · exact List.mem_cons_of_mem _ (ih hm)

theorem setCondition_cases (s : MXJobStatus) (c : MXJobCondition) :
    setCondition s c = s ∨
    ∃ c2, c2.ctype = c.ctype ∧ c2.status = c.status ∧ c2.reason = c.reason ∧
      (setCondition s c).conditions =
        filterOutCondition s.conditions c.ctype ++ [c2] := by
  by_cases hterm : (isFailed s || isSucceeded s) = true
  · exact Or.inl (setCondition_of_completed s c hterm)
  · rw [Bool.not_eq_true] at hterm
    rcases hg : s.conditions.getLast? with _ | cc
    · exact Or.inr ⟨c, rfl, rfl, rfl,
        by rw [setCondition_of_getLast_none s c hterm hg]⟩
    · by_cases hno : cc.status = c.status ∧ cc.reason = c.reason
      · exact Or.inl (setCondition_noop s c cc hg hno.1 hno.2)
      · by_cases hst : cc.status = c.status
        · exact Or.inr ⟨{ c with lastTransitionTime := cc.lastTransitionTime },
            rfl, rfl, rfl,
            by rw [setCondition_proceed_same_status s c cc hterm hg hst
              (fun hr => hno ⟨hst, hr⟩)]⟩
        · exact Or.inr ⟨c, rfl, rfl, rfl,
            by rw [setCondition_proceed_diff_status s c cc hterm hg hst]⟩

/-- C10: when setCondition inserts a Succeeded or Failed condition, every
existing Restarting or Created entry is retained in the list unchanged (in
particular a live Restarting keeps status True), and every entry of the
result is an original entry, an original Running entry with its status
flipped to False, or the newly inserted condition — only Running entries
are downgraded. -/
theorem terminal_insert_retains (s : MXJobStatus) (c : MXJobCondition)
    (hc : c.ctype = MXJobConditionType.succeeded ∨
      c.ctype = MXJobConditionType.failed) :
    (∀ d ∈ s.conditions,
      (d.ctype = MXJobConditionType.restarting ∨
        d.ctype = MXJobConditionType.created) →
      d ∈ (setCondition s c).conditions) ∧
    (∀ d ∈ (setCondition s c).conditions,
      d ∈ s.conditions ∨
      (∃ d0 ∈ s.conditions, d0.ctype = MXJobConditionType.running ∧
        d = { d0 with status := ConditionStatus.conditionFalse }) ∨
      (d.ctype = c.ctype ∧ d.status = c.status ∧ d.reason = c.reason)) := by
  rcases setCondition_cases s c with h | ⟨c2, h1, h2, h3, hconds⟩
  · rw [h]
    exact ⟨fun d hd _ => hd, fun d hd => Or.inl hd⟩
  · constructor
    · intro d hd hdt
      rw [hconds]
      exact List.mem_append.mpr
        (Or.inl (mem_filterOutCondition_keep s.conditions c.ctype d hc hd hdt))
    · intro d hd
      rw [hconds] at hd
      rcases List.mem_append.mp hd with hm | hm
      · rcases mem_filterOutCondition_strong _ _ _ hm with h | ⟨d0, hd0, hr, he⟩
        · exact Or.inl h
        · exact Or.inr (Or.inl ⟨d0, hd0, hr, he⟩)
      · rw [List.mem_singleton.mp hm]
        exact Or.inr (Or.inr ⟨h1, h2, h3⟩)

/-- Status holding a single live Restarting condition. -/
def sRestartingOnly : MXJobStatus :=
  { startTime := some 0
    completionTime := none
    mxReplicaStatuses := emptyRS
    conditions :=
      [{ ctype := MXJobConditionType.restarting
         status := ConditionStatus.conditionTrue
         lastUpdateTime := 0
         lastTransitionTime := 0
         reason := mxJobRestartingReason
         message := "m" }] }

/-- C10 witness: inserting Failed keeps the live Restarting entry intact. -/
theorem terminal_insert_retains_witness :
    { ctype := MXJobConditionType.restarting
      status := ConditionStatus.conditionTrue
      lastUpdateTime := 0
      lastTransitionTime := 0
      reason := mxJobRestartingReason
      message := "m" : MXJobCondition } ∈
      (setCondition sRestartingOnly
        (newCondition MXJobConditionType.failed mxJobFailedReason "m2"
          8)).conditions :=
  (terminal_insert_retains sRestartingOnly
      (newCondition MXJobConditionType.failed mxJobFailedReason "m2" 8)
      (Or.inr rfl)).1 _ (by decide) (Or.inl rfl)
